import Mathlib

/-
Verification of the coplanar-waveguide path synthesizer and continuity
checker (kqcircuits/elements/waveguide_coplanar.py).

Modelling conventions:
* 2-D points and vectors are pairs of real numbers; the Python code's
  floating-point arithmetic is modelled by exact real arithmetic.
* `math.atan2 y x` is modelled by the argument of the complex number x + iy
  (same branch: values in (-pi, pi], atan2 0 0 = 0).
* Real division is total in Lean (x / 0 = 0).  The Python code raises
  ZeroDivisionError on the corresponding inputs (coincident consecutive
  points, exact reversal corners); all theorems below that depend on the
  values of such divisions carry hypotheses keeping the denominators
  nonzero, matching the inputs on which the Python code completes.
* The host layout library (KLayout) is modelled by: `vprod_sign` (sign of
  the 2-D cross product), `R270` rotation (x, y) -> (y, -x), and complex
  transformations `DCplxTrans(1, angle_degrees, False, disp)` acting as
  rotation by `angle_degrees` degrees followed by translation.
-/

open Real
open Classical

noncomputable section

/-- A 2-D point or vector (micrometre coordinates), as in KLayout DPoint/DVector. -/
abbrev Pt : Type := ℝ × ℝ

/-- Euclidean length of a vector (KLayout `DVector.length` / `DVector.abs`). -/
def vlen (v : Pt) : ℝ := Real.sqrt (v.1 ^ 2 + v.2 ^ 2)

/-- Euclidean distance between two points (KLayout `DPoint.distance`). -/
def ptDist (p q : Pt) : ℝ := vlen (q - p)

/-- `math.atan2 y x`, modelled as the principal argument of x + iy. -/
def atan2 (y x : ℝ) : ℝ := Complex.arg { re := x, im := y }

/-- KLayout `DVector.vprod_sign`: sign (-1, 0, or 1) of the 2-D cross product. -/
def vprod_sign (v w : Pt) : ℝ := Real.sign (v.1 * w.2 - v.2 * w.1)

/-- KLayout `DTrans.R270` applied to a vector: rotation by 270 degrees. -/
def r270 (v : Pt) : Pt := (v.2, -v.1)

/-- Rotation of a point about the origin by `θ` radians. -/
def rotRad (θ : ℝ) (p : Pt) : Pt :=
  (Real.cos θ * p.1 - Real.sin θ * p.2, Real.sin θ * p.1 + Real.cos θ * p.2)

/-- KLayout `DCplxTrans(1, angleDeg, False, disp)`: rotate by `angleDeg` degrees,
then translate by `disp`. -/
def applyTrans (angleDeg : ℝ) (disp : Pt) (p : Pt) : Pt :=
  disp + rotRad (angleDeg * (π / 180)) p

/-- One output artifact of the synthesizer: a placed straight waveguide cell, a
placed curved waveguide cell, a termination cap polygon (metal-gap layer), a
keep-out polygon (ground-grid-avoidance layer), or a registered port. -/
inductive Piece : Type
  | straight (l angleDeg : ℝ) (pos : Pt)
  | curved (alpha angleDeg : ℝ) (pos : Pt)
  | capPoly (vs : List Pt)
  | keepoutPoly (vs : List Pt)
  | portA (pos dir : Pt)
  | portB (pos dir : Pt)

/-- Result of `WaveguideCoplanar.get_corner_data`. -/
structure CornerData : Type where
  v1 : Pt
  v2 : Pt
  alpha1 : ℝ
  alpha2 : ℝ
  corner_pos : Pt

/-- `WaveguideCoplanar.get_corner_data(point1, point2, point3, r)`. -/
def get_corner_data (point1 point2 point3 : Pt) (r : ℝ) : CornerData :=
  let v1 := point2 - point1
  let v2 := point3 - point2
  let alpha1 := atan2 v1.2 v1.1
  let alpha2 := atan2 v2.2 v2.1
  let alphacorner := (π - (alpha2 - alpha1)) / 2 + alpha2
  let distcorner := vprod_sign v1 v2 * r / Real.sin ((π - (alpha2 - alpha1)) / 2)
  { v1 := v1, v2 := v2, alpha1 := alpha1, alpha2 := alpha2,
    corner_pos := point2 + (Real.cos alphacorner * distcorner, Real.sin alphacorner * distcorner) }

/-- The minimal turn angle (`min_angle = 1e-5` in `produce_waveguide`) below
which no curved cell is emitted. -/
def min_angle : ℝ := 1e-5

/-- The curved cells emitted for one corner of the path: one curved cell when
`abs(alpha) >= min_angle`, nothing otherwise (lines 73-79 of the source). -/
def stepArcs (r : ℝ) (p0 p1 p2 : Pt) : List Piece :=
  let c := get_corner_data p0 p1 p2 r
  let alpha := c.alpha2 - c.alpha1
  if min_angle ≤ |alpha| then
    [Piece.curved alpha (c.alpha1 / π * 180.0 - vprod_sign c.v1 c.v2 * 90) c.corner_pos]
  else []

/-- State returned by the corner loop of `produce_waveguide`: emitted pieces,
the rolling cursor `segment_last`, and the last two path points seen
(`points[-2]`, `points[-1]` once the whole path is consumed). -/
structure SynthState : Type where
  pieces : List Piece
  segLast : Pt
  pen : Pt
  fin : Pt

/-- The `for i in range(0, len(points) - 2)` loop of `produce_waveguide`
(lines 58-79): at each interior vertex emit a straight cell then possibly a
curved cell, advancing the cursor `segment_last`. -/
def synthLoop (r cso : ℝ) : List Pt → Pt → Pt → Pt → SynthState
  | [], p0, p1, seg => ⟨[], seg, p0, p1⟩
  | p2 :: rest, p0, p1, seg =>
    let c := get_corner_data p0 p1 p2 r
    let cut := vprod_sign c.v1 c.v2 * r / Real.tan ((π - (c.alpha2 - c.alpha1)) / 2)
    let l := ptDist seg p1 - cut + cso
    let angle := 180 / π * atan2 (p1.2 - seg.2) (p1.1 - seg.1)
    let seg2 := p1 + ((1 / vlen c.v2) * cut) • c.v2 - (cso / vlen c.v2) • c.v2
    let out := synthLoop r cso rest p1 p2 seg2
    ⟨Piece.straight l angle seg :: (stepArcs r p0 p1 p2 ++ out.pieces),
      out.segLast, out.pen, out.fin⟩

/-- `WaveguideCoplanar.produce_end_termination(elem, point_1, point_2, term_len)`
(lines 129-162): a cap polygon in the metal-gap layer when `term_len > 0`, and
always a keep-out polygon (widths `a/2+b`, resp. `a/2+b+margin`; the keep-out
length is `term_len + margin`). -/
def produce_end_termination (a b margin : ℝ) (point_1 point_2 : Pt) (term_len : ℝ) :
    List Piece :=
  let v := (1 / ptDist point_1 point_2) • (point_2 - point_1)
  let u := r270 v
  (if 0 < term_len then
    [Piece.capPoly [point_2 + (a / 2 + b) • u, point_2 + (a / 2 + b) • u + term_len • v,
      point_2 + (-(a / 2) - b) • u + term_len • v, point_2 + (-(a / 2) - b) • u]]
   else []) ++
  [Piece.keepoutPoly [point_2 + (a / 2 + b + margin) • u,
    point_2 + (a / 2 + b + margin) • u + (term_len + margin) • v,
    point_2 + (-(a / 2) - b - margin) • u + (term_len + margin) • v,
    point_2 + (-(a / 2) - b - margin) • u]]

/-- `WaveguideCoplanar.produce_waveguide` (lines 43-95).  A path with fewer
than 2 points hits `points[1]` before anything is emitted (IndexError in
Python), modelled as `none`.  Otherwise the emitted artifacts are returned in
insertion order: start termination, port "a", the corner-loop cells, end
termination, port "b", final straight cell. -/
def produce_waveguide (r cso term1 term2 a b margin : ℝ) : List Pt → Option (List Piece)
  | p0 :: p1 :: rest =>
    let t1 := produce_end_termination a b margin p1 p0 term1
    let seg0 := if 0 < term1 then p0 - (cso / vlen (p1 - p0)) • (p1 - p0) else p0
    let out := synthLoop r cso rest p0 p1 seg0
    let l := ptDist out.segLast out.fin + (if 0 < term2 then cso else 0)
    let angle := 180 / π * atan2 (out.fin.2 - out.segLast.2) (out.fin.1 - out.segLast.1)
    let t2 := produce_end_termination a b margin out.pen out.fin term2
    some (t1 ++ [Piece.portA p0 (p0 - p1)] ++ out.pieces ++ t2 ++
      [Piece.portB out.fin (out.fin - out.pen)] ++ [Piece.straight l angle out.segLast])
  | _ => none

/-- Modelled from the spec: the annotation-layer path of a rendered cell, in
waveguide coordinates.  The cells `WaveguideCoplanarStraight` and
`WaveguideCoplanarCurved` are not under src/; per the spec the straight
primitive of length `l` spans `(0,0)`-`(l,0)` in local coordinates, and the
curved primitive of turn `alpha` and radius `r` is the arc of radius `r`
about the local origin from local angle `0` to `alpha`, so its endpoints are
`(r, 0)` and `(r cos alpha, r sin alpha)`.  Polygons and ports are not paths
in the annotation layer. -/
def annPair (r : ℝ) : Piece → Option (Pt × Pt)
  | Piece.straight l deg pos => some (applyTrans deg pos (0, 0), applyTrans deg pos (l, 0))
  | Piece.curved alpha deg pos =>
      some (applyTrans deg pos (r, 0), applyTrans deg pos (r * Real.cos alpha, r * Real.sin alpha))
  | _ => none

/-- Endpoint pairs of the annotation-layer paths of a list of pieces: the
input that `is_continuous` reads back from the rendered cell. -/
def annPairs (r : ℝ) (ps : List Piece) : List (Pt × Pt) := ps.filterMap (annPair r)

/-- Whether a piece is a straight waveguide cell. -/
def isStraightPiece : Piece → Bool
  | Piece.straight _ _ _ => true
  | _ => false

/-- Whether a piece is a curved waveguide cell. -/
def isCurvedPiece : Piece → Bool
  | Piece.curved _ _ _ => true
  | _ => false

/-- Whether a piece is a termination cap polygon. -/
def isCapPiece : Piece → Bool
  | Piece.capPoly _ => true
  | _ => false

/-- Whether a piece is a keep-out polygon. -/
def isKeepoutPiece : Piece → Bool
  | Piece.keepoutPoly _ => true
  | _ => false

/-- Number of straight waveguide cells among the pieces. -/
def straightCount (ps : List Piece) : ℕ := ps.countP isStraightPiece

/-- Number of curved waveguide cells among the pieces. -/
def curvedCount (ps : List Piece) : ℕ := ps.countP isCurvedPiece

/-- Number of termination cap polygons among the pieces. -/
def capCount (ps : List Piece) : ℕ := ps.countP isCapPiece

/-- Number of keep-out polygons among the pieces. -/
def keepoutCount (ps : List Piece) : ℕ := ps.countP isKeepoutPiece

/-- The inner `find_connected_point` search of `is_continuous` (lines
206-220): endpoint `point` of segment `i` is connected when some other
segment `j` has an endpoint strictly within `tolerance`.  The Python loop
with early exit computes exactly this existence. -/
def foundConn (endpoints : List (Pt × Pt)) (tolerance : ℝ) (i : ℕ) (point : Pt) : Prop :=
  ∃ j, j < endpoints.length ∧ j ≠ i ∧
    (ptDist point (endpoints.getD j ((0, 0), (0, 0))).2 < tolerance ∨
      ptDist point (endpoints.getD j ((0, 0), (0, 0))).1 < tolerance)

/-- Contribution of segment `i` to `num_non_connected_points`: zero-length
segments are ignored, otherwise each of the two endpoints counts when no
connected point is found for it (lines 218-225). -/
def unmatchedInc (endpoints : List (Pt × Pt)) (tolerance : ℝ) (i : ℕ) : ℕ :=
  let ep := endpoints.getD i ((0, 0), (0, 0))
  if ptDist ep.1 ep.2 ≠ 0 then
    (if foundConn endpoints tolerance i ep.1 then 0 else 1) +
      (if foundConn endpoints tolerance i ep.2 then 0 else 1)
  else 0

/-- The outer loop of `is_continuous` (lines 204-230), carrying the running
`num_non_connected_points` and breaking (result `false`) as soon as it
exceeds 2. -/
def contLoop (endpoints : List (Pt × Pt)) (tolerance : ℝ) : List ℕ → ℕ → Bool
  | [], _ => true
  | i :: rest, cnt =>
    let cnt2 := cnt + unmatchedInc endpoints tolerance i
    if 2 < cnt2 then false else contLoop endpoints tolerance rest cnt2

/-- `WaveguideCoplanar.is_continuous` (lines 164-232), acting on the endpoint
pairs extracted from the annotation layer. -/
def is_continuous (endpoints : List (Pt × Pt)) (tolerance : ℝ) : Bool :=
  contLoop endpoints tolerance (List.range endpoints.length) 0

/-- Total number of unmatched endpoints over all pieces, as described by the
spec (the claim-side count): endpoints of coincident-endpoint pieces impose
no requirement, every other endpoint counts when it is not strictly within
tolerance of an endpoint of some other piece. -/
def numUnmatched (endpoints : List (Pt × Pt)) (tolerance : ℝ) : ℕ :=
  ((List.range endpoints.length).map (unmatchedInc endpoints tolerance)).sum

/-- The signed turn angle `alpha2 - alpha1` at the middle vertex of three
consecutive path points. -/
def turnAngle (p0 p1 p2 : Pt) : ℝ :=
  atan2 (p2 - p1).2 (p2 - p1).1 - atan2 (p1 - p0).2 (p1 - p0).1

/-- Every leg of the path is strictly longer than `2 * r`. -/
def LegsOK (r : ℝ) : List Pt → Prop
  | p :: q :: rest => 2 * r < ptDist p q ∧ LegsOK r (q :: rest)
  | _ => True

/-- Every corner's turn angle has magnitude between `min_angle` and `π / 2`. -/
def TurnsOK : List Pt → Prop
  | p0 :: p1 :: p2 :: rest =>
      (min_angle ≤ |turnAngle p0 p1 p2| ∧ |turnAngle p0 p1 p2| ≤ π / 2) ∧
        TurnsOK (p1 :: p2 :: rest)
  | _ => True

/-- The annotation endpoint pairs of the pieces synthesized for the
counterexample path (0,0), (25,0), (5,15), (30,15) with r = 12 and
corner_safety_overlap = 1/1000. -/
def cexEndpoints : List (Pt × Pt) :=
  [(((0, 0) : Pt), (-(10999 / 1000), 0)),
   ((-11, 0), (-(19 / 5), 108 / 5)),
   ((-(4749 / 1250), 107997 / 5000), (-(29749 / 1250), 182997 / 5000)),
   ((169 / 5, -(33 / 5)), (41, 15)),
   ((40999 / 1000, 15), (30, 15))]

/-! ### Basic geometry lemmas -/

theorem vlen_nonneg (v : Pt) : 0 ≤ vlen v := Real.sqrt_nonneg _

theorem vlen_eq_zero_iff {v : Pt} : vlen v = 0 ↔ v = 0 := by
  unfold vlen
  rw [Real.sqrt_eq_zero (by positivity)]
  constructor
  · intro h
    have h1 : v.1 = 0 := by nlinarith [sq_nonneg v.1, sq_nonneg v.2]
    have h2 : v.2 = 0 := by nlinarith [sq_nonneg v.1, sq_nonneg v.2]
    exact Prod.ext h1 h2
  · intro h; rw [h]; norm_num

theorem vlen_pos {v : Pt} (hv : v ≠ 0) : 0 < vlen v :=
  lt_of_le_of_ne (vlen_nonneg v) fun h => hv (vlen_eq_zero_iff.mp h.symm)

theorem vlen_smul (c : ℝ) (v : Pt) : vlen (c • v) = |c| * vlen v := by
  unfold vlen
  have h1 : (c • v).1 = c * v.1 := rfl
  have h2 : (c • v).2 = c * v.2 := rfl
  rw [h1, h2, show (c * v.1) ^ 2 + (c * v.2) ^ 2 = c ^ 2 * (v.1 ^ 2 + v.2 ^ 2) from by ring,
    Real.sqrt_mul (sq_nonneg c), Real.sqrt_sq_eq_abs]

theorem vlen_cos_sin (θ : ℝ) : vlen (Real.cos θ, Real.sin θ) = 1 := by
  unfold vlen
  simp [Real.cos_sq_add_sin_sq]

theorem ptDist_comm (p q : Pt) : ptDist p q = ptDist q p := by
  unfold ptDist vlen
  have h1 : (q - p).1 = q.1 - p.1 := rfl
  have h2 : (q - p).2 = q.2 - p.2 := rfl
  have h3 : (p - q).1 = p.1 - q.1 := rfl
  have h4 : (p - q).2 = p.2 - q.2 := rfl
  rw [h1, h2, h3, h4]
  ring_nf

theorem ptDist_nonneg (p q : Pt) : 0 ≤ ptDist p q := Real.sqrt_nonneg _

theorem ptDist_shift (p u : Pt) (x y : ℝ) :
    ptDist (p + x • u) (p + y • u) = |y - x| * vlen u := by
  unfold ptDist
  rw [show p + y • u - (p + x • u) = (y - x) • u from by rw [sub_smul]; abel, vlen_smul]

theorem ptDist_self_sub (p : Pt) (d : ℝ) (u : Pt) :
    ptDist (p - d • u) p = |d| * vlen u := by
  unfold ptDist
  rw [show p - (p - d • u) = d • u from by abel, vlen_smul]

/-! ### atan2 lemmas -/

theorem cos_sin_atan2 {v : Pt} (hv : v ≠ 0) :
    (Real.cos (atan2 v.2 v.1), Real.sin (atan2 v.2 v.1)) = (1 / vlen v) • v := by
  have hz : (⟨v.1, v.2⟩ : ℂ) ≠ 0 := by
    intro h
    apply hv
    have := Complex.ext_iff.mp h
    exact Prod.ext this.1 this.2
  have habs : Complex.abs ⟨v.1, v.2⟩ = vlen v := by
    rw [Complex.abs_apply, Complex.normSq_mk]
    unfold vlen
    ring_nf
  have hc := Complex.cos_arg hz
  have hs := Complex.sin_arg (⟨v.1, v.2⟩ : ℂ)
  unfold atan2
  apply Prod.ext
  · simpa [habs, div_eq_mul_inv, mul_comm] using hc
  · simpa [habs, div_eq_mul_inv, mul_comm] using hs

theorem atan2_smul_pos {c : ℝ} (hc : 0 < c) (v : Pt) :
    atan2 (c • v).2 (c • v).1 = atan2 v.2 v.1 := by
  unfold atan2
  have h1 : (c • v).1 = c * v.1 := rfl
  have h2 : (c • v).2 = c * v.2 := rfl
  rw [h1, h2, show ({ re := c * v.1, im := c * v.2 } : ℂ) = (c : ℝ) * ⟨v.1, v.2⟩ from by
    simp [Complex.ext_iff]]
  exact Complex.arg_real_mul _ hc

theorem atan2_zero_zero : atan2 0 0 = 0 := by
  unfold atan2
  rw [show ({ re := 0, im := 0 } : ℂ) = 0 from by simp [Complex.ext_iff]]
  exact Complex.arg_zero

/-! ### Degree/radian conversion -/

theorem deg_rad (x : ℝ) : 180 / π * x * (π / 180) = x := by
  field_simp

theorem deg_rad_arc (x s : ℝ) : (x / π * 180.0 - s * 90) * (π / 180) = x - s * (π / 2) := by
  have hπ := Real.pi_ne_zero
  field_simp
  ring

/-! ### Endpoints of placed pieces -/

theorem applyTrans_origin (deg : ℝ) (pos : Pt) : applyTrans deg pos (0, 0) = pos := by
  unfold applyTrans rotRad
  simp

theorem applyTrans_xaxis (deg l : ℝ) (pos : Pt) :
    applyTrans deg pos (l, 0) =
      pos + l • (Real.cos (deg * (π / 180)), Real.sin (deg * (π / 180))) := by
  unfold applyTrans rotRad
  apply Prod.ext
  · show pos.1 + _ = pos.1 + _
    simp [smul_eq_mul]
    ring
  · show pos.2 + _ = pos.2 + _
    simp [smul_eq_mul]
    ring

theorem annPair_straight (r l deg : ℝ) (pos : Pt) :
    annPair r (Piece.straight l deg pos) =
      some (pos, pos + l • (Real.cos (deg * (π / 180)), Real.sin (deg * (π / 180)))) := by
  simp only [annPair]
  rw [applyTrans_origin, applyTrans_xaxis]

theorem rotRad_polar (θ c a : ℝ) :
    rotRad θ (c * Real.cos a, c * Real.sin a) = c • (Real.cos (θ + a), Real.sin (θ + a)) := by
  unfold rotRad
  apply Prod.ext
  · show Real.cos θ * (c * Real.cos a) - Real.sin θ * (c * Real.sin a) = c * Real.cos (θ + a)
    rw [Real.cos_add]; ring
  · show Real.sin θ * (c * Real.cos a) + Real.cos θ * (c * Real.sin a) = c * Real.sin (θ + a)
    rw [Real.sin_add]; ring

theorem annPair_curved (r alpha deg : ℝ) (pos : Pt) :
    annPair r (Piece.curved alpha deg pos) =
      some (pos + r • (Real.cos (deg * (π / 180)), Real.sin (deg * (π / 180))),
        pos + r • (Real.cos (deg * (π / 180) + alpha), Real.sin (deg * (π / 180) + alpha))) := by
  simp only [annPair]
  rw [applyTrans_xaxis]
  congr 2
  unfold applyTrans
  rw [rotRad_polar]

/-- A straight cell whose length is exactly the cursor-to-target distance and
whose heading points from the cursor to the target ends exactly at the
target, in every case (including cursor = target, where `atan2 0 0 = 0` and
the length is 0). -/
theorem annPair_straight_to_target (r : ℝ) (seg target : Pt) :
    annPair r (Piece.straight (ptDist seg target)
        (180 / π * atan2 (target.2 - seg.2) (target.1 - seg.1)) seg) =
      some (seg, target) := by
  rw [annPair_straight, deg_rad]
  rcases eq_or_ne (target - seg) 0 with h0 | h0
  · have ht : target = seg := by
      have := congrArg (· + seg) h0
      simpa [sub_add_cancel] using this
    have hd : ptDist seg target = 0 := by
      rw [ht]; unfold ptDist; rw [sub_self]
      exact vlen_eq_zero_iff.mpr rfl
    rw [hd, ht]
    simp
  · have h1 : (target - seg).1 = target.1 - seg.1 := rfl
    have h2 : (target - seg).2 = target.2 - seg.2 := rfl
    have := cos_sin_atan2 h0
    rw [h1, h2] at this
    rw [this, smul_smul]
    have hvp : vlen (target - seg) ≠ 0 := ne_of_gt (vlen_pos h0)
    have : ptDist seg target * (1 / vlen (target - seg)) = 1 := by
      unfold ptDist
      field_simp
    rw [this, one_smul]
    have hfix : seg + (target - seg) = target := by abel
    rw [hfix]

/-! ### Piece-count helpers -/

theorem stepArcs_straightCount (r : ℝ) (p0 p1 p2 : Pt) :
    straightCount (stepArcs r p0 p1 p2) = 0 := by
  simp only [stepArcs, straightCount]
  split <;> simp [isStraightPiece]

theorem stepArcs_capCount (r : ℝ) (p0 p1 p2 : Pt) :
    capCount (stepArcs r p0 p1 p2) = 0 := by
  simp only [stepArcs, capCount]
  split <;> simp [isCapPiece]

theorem stepArcs_keepoutCount (r : ℝ) (p0 p1 p2 : Pt) :
    keepoutCount (stepArcs r p0 p1 p2) = 0 := by
  simp only [stepArcs, keepoutCount]
  split <;> simp [isKeepoutPiece]

theorem synthLoop_straightCount (r cso : ℝ) (rest : List Pt) (p0 p1 seg : Pt) :
    straightCount (synthLoop r cso rest p0 p1 seg).pieces = rest.length := by
  induction rest generalizing p0 p1 seg with
  | nil => rfl
  | cons p2 rest ih =>
    have harc := stepArcs_straightCount r p0 p1 p2
    simp only [synthLoop, straightCount, List.countP_cons, List.countP_append] at *
    simp [isStraightPiece, harc, ih]

theorem synthLoop_capCount (r cso : ℝ) (rest : List Pt) (p0 p1 seg : Pt) :
    capCount (synthLoop r cso rest p0 p1 seg).pieces = 0 := by
  induction rest generalizing p0 p1 seg with
  | nil => rfl
  | cons p2 rest ih =>
    have harc := stepArcs_capCount r p0 p1 p2
    simp only [synthLoop, capCount, List.countP_cons, List.countP_append] at *
    simp [isCapPiece, harc, ih]

theorem synthLoop_keepoutCount (r cso : ℝ) (rest : List Pt) (p0 p1 seg : Pt) :
    keepoutCount (synthLoop r cso rest p0 p1 seg).pieces = 0 := by
  induction rest generalizing p0 p1 seg with
  | nil => rfl
  | cons p2 rest ih =>
    have harc := stepArcs_keepoutCount r p0 p1 p2
    simp only [synthLoop, keepoutCount, List.countP_cons, List.countP_append] at *
    simp [isKeepoutPiece, harc, ih]

theorem termination_capCount (a b margin : ℝ) (q1 q2 : Pt) (tl : ℝ) :
    capCount (produce_end_termination a b margin q1 q2 tl) = if 0 < tl then 1 else 0 := by
  unfold produce_end_termination capCount
  split <;> simp [isCapPiece]

theorem termination_keepoutCount (a b margin : ℝ) (q1 q2 : Pt) (tl : ℝ) :
    keepoutCount (produce_end_termination a b margin q1 q2 tl) = 1 := by
  unfold produce_end_termination keepoutCount
  split <;> simp [isKeepoutPiece]

theorem termination_straightCount (a b margin : ℝ) (q1 q2 : Pt) (tl : ℝ) :
    straightCount (produce_end_termination a b margin q1 q2 tl) = 0 := by
  unfold produce_end_termination straightCount
  split <;> simp [isStraightPiece]

/-! ### Claim theorems: corner solver and loop structure -/

/-- C2: for points p1 ≠ p2, p2 ≠ p3 and any radius r, `get_corner_data`
returns v1 = p2 - p1, v2 = p3 - p2, alpha1 = atan2(v1.y, v1.x),
alpha2 = atan2(v2.y, v2.x), and
corner_pos = p2 + (cos alphacorner, sin alphacorner) * distcorner with
alphacorner = (π - (alpha2 - alpha1))/2 + alpha2 and
distcorner = vprod_sign(v1, v2) * r / sin((π - (alpha2 - alpha1))/2). -/
theorem C2_get_corner_data (p1 p2 p3 : Pt) (r : ℝ) (h12 : p1 ≠ p2) (h23 : p2 ≠ p3) :
    get_corner_data p1 p2 p3 r =
      { v1 := p2 - p1, v2 := p3 - p2,
        alpha1 := atan2 (p2 - p1).2 (p2 - p1).1,
        alpha2 := atan2 (p3 - p2).2 (p3 - p2).1,
        corner_pos := p2 +
          (Real.cos ((π - (atan2 (p3 - p2).2 (p3 - p2).1 - atan2 (p2 - p1).2 (p2 - p1).1)) / 2 +
                atan2 (p3 - p2).2 (p3 - p2).1) *
              (vprod_sign (p2 - p1) (p3 - p2) * r /
                Real.sin ((π - (atan2 (p3 - p2).2 (p3 - p2).1 -
                  atan2 (p2 - p1).2 (p2 - p1).1)) / 2)),
            Real.sin ((π - (atan2 (p3 - p2).2 (p3 - p2).1 - atan2 (p2 - p1).2 (p2 - p1).1)) / 2 +
                atan2 (p3 - p2).2 (p3 - p2).1) *
              (vprod_sign (p2 - p1) (p3 - p2) * r /
                Real.sin ((π - (atan2 (p3 - p2).2 (p3 - p2).1 -
                  atan2 (p2 - p1).2 (p2 - p1).1)) / 2))) } := rfl

/-- Witness for C2 at p1 = (0,0), p2 = (1,0), p3 = (1,1), r = 2. -/
theorem C2_witness :
    get_corner_data ((0, 0) : Pt) (1, 0) (1, 1) 2 =
      { v1 := ((1, 0) : Pt) - (0, 0), v2 := ((1, 1) : Pt) - (1, 0),
        alpha1 := atan2 (((1, 0) : Pt) - (0, 0)).2 (((1, 0) : Pt) - (0, 0)).1,
        alpha2 := atan2 (((1, 1) : Pt) - (1, 0)).2 (((1, 1) : Pt) - (1, 0)).1,
        corner_pos := ((1, 0) : Pt) +
          (Real.cos ((π - (atan2 (((1, 1) : Pt) - (1, 0)).2 (((1, 1) : Pt) - (1, 0)).1 -
                  atan2 (((1, 0) : Pt) - (0, 0)).2 (((1, 0) : Pt) - (0, 0)).1)) / 2 +
                atan2 (((1, 1) : Pt) - (1, 0)).2 (((1, 1) : Pt) - (1, 0)).1) *
              (vprod_sign (((1, 0) : Pt) - (0, 0)) (((1, 1) : Pt) - (1, 0)) * 2 /
                Real.sin ((π - (atan2 (((1, 1) : Pt) - (1, 0)).2 (((1, 1) : Pt) - (1, 0)).1 -
                  atan2 (((1, 0) : Pt) - (0, 0)).2 (((1, 0) : Pt) - (0, 0)).1)) / 2)),
            Real.sin ((π - (atan2 (((1, 1) : Pt) - (1, 0)).2 (((1, 1) : Pt) - (1, 0)).1 -
                  atan2 (((1, 0) : Pt) - (0, 0)).2 (((1, 0) : Pt) - (0, 0)).1)) / 2 +
                atan2 (((1, 1) : Pt) - (1, 0)).2 (((1, 1) : Pt) - (1, 0)).1) *
              (vprod_sign (((1, 0) : Pt) - (0, 0)) (((1, 1) : Pt) - (1, 0)) * 2 /
                Real.sin ((π - (atan2 (((1, 1) : Pt) - (1, 0)).2 (((1, 1) : Pt) - (1, 0)).1 -
                  atan2 (((1, 0) : Pt) - (0, 0)).2 (((1, 0) : Pt) - (0, 0)).1)) / 2))) } :=
  C2_get_corner_data (0, 0) (1, 0) (1, 1) 2
    (by intro h; exact absurd (congrArg Prod.fst h) (by norm_num))
    (by intro h; exact absurd (congrArg Prod.snd h) (by norm_num))

/-- C8: a path with fewer than 2 points is rejected before synthesis: the
model returns `none` (in Python, evaluating `points[1]` raises IndexError
before any placement, polygon, or port has been inserted). -/
theorem C8_short_path_rejected (r cso term1 term2 a b margin : ℝ) (path : List Pt)
    (h : path.length < 2) :
    produce_waveguide r cso term1 term2 a b margin path = none := by
  match path with
  | [] => rfl
  | [p] => rfl
  | p :: q :: rest =>
    simp only [List.length_cons] at h
    omega

/-- Witness for C8 on the empty path. -/
theorem C8_witness : produce_waveguide 1 1 1 1 1 1 1 [] = none :=
  C8_short_path_rejected 1 1 1 1 1 1 1 [] (by decide)

/-- C10: for every path with n ≥ 2 points, `produce_waveguide` inserts
exactly n - 1 straight waveguide cells (one per loop iteration plus the
final segment), regardless of collinearity of interior vertices. -/
theorem C10_straight_cell_count (r cso term1 term2 a b margin : ℝ) (p0 p1 : Pt)
    (rest : List Pt) :
    straightCount ((produce_waveguide r cso term1 term2 a b margin (p0 :: p1 :: rest)).getD []) =
      (p0 :: p1 :: rest).length - 1 := by
  simp only [produce_waveguide, Option.getD_some]
  simp only [straightCount, List.countP_append, List.countP_cons]
  have h1 := termination_straightCount a b margin p1 p0 term1
  have h2 := termination_straightCount a b margin
    (synthLoop r cso rest p0 p1 (if 0 < term1 then p0 - (cso / vlen (p1 - p0)) • (p1 - p0) else p0)).pen
    (synthLoop r cso rest p0 p1 (if 0 < term1 then p0 - (cso / vlen (p1 - p0)) • (p1 - p0) else p0)).fin
    term2
  have h3 := synthLoop_straightCount r cso rest p0 p1
    (if 0 < term1 then p0 - (cso / vlen (p1 - p0)) • (p1 - p0) else p0)
  simp only [straightCount] at h1 h2 h3
  simp [h1, h2, h3, isStraightPiece]

/-- `stepArcs` written through `turnAngle`; definitional unfolding of the
structure projections of `get_corner_data`. -/
theorem stepArcs_eq (r : ℝ) (p0 p1 p2 : Pt) :
    stepArcs r p0 p1 p2 =
      if min_angle ≤ |turnAngle p0 p1 p2| then
        [Piece.curved (turnAngle p0 p1 p2)
          (atan2 (p1 - p0).2 (p1 - p0).1 / π * 180.0 - vprod_sign (p1 - p0) (p2 - p1) * 90)
          (get_corner_data p0 p1 p2 r).corner_pos]
      else [] := rfl

/-- `synthLoop` on a cons cell, with the structure projections of
`get_corner_data` reduced (definitional). -/
theorem synthLoop_cons (r cso : ℝ) (p0 p1 p2 : Pt) (rest : List Pt) (seg : Pt) :
    synthLoop r cso (p2 :: rest) p0 p1 seg =
      { synthLoop r cso rest p1 p2
          (p1 +
            ((1 / vlen (p2 - p1)) *
              (vprod_sign (p1 - p0) (p2 - p1) * r / Real.tan ((π - turnAngle p0 p1 p2) / 2))) •
              (p2 - p1) -
            (cso / vlen (p2 - p1)) • (p2 - p1)) with
        pieces := Piece.straight
            (ptDist seg p1 -
              vprod_sign (p1 - p0) (p2 - p1) * r / Real.tan ((π - turnAngle p0 p1 p2) / 2) + cso)
            (180 / π * atan2 (p1.2 - seg.2) (p1.1 - seg.1)) seg ::
          (stepArcs r p0 p1 p2 ++
            (synthLoop r cso rest p1 p2
              (p1 +
                ((1 / vlen (p2 - p1)) *
                  (vprod_sign (p1 - p0) (p2 - p1) * r /
                    Real.tan ((π - turnAngle p0 p1 p2) / 2))) • (p2 - p1) -
                (cso / vlen (p2 - p1)) • (p2 - p1))).pieces) } := rfl

/-- C3: at each interior vertex the loop emits a straight cell of length
`distance(cursor, points[i+1]) - cut + corner_safety_overlap`, where
`cut = vprod_sign(v1, v2) * r / tan((π - (alpha2 - alpha1))/2)`, placed at
the cursor with heading `atan2(Δy, Δx)` toward `points[i+1]` (stored in
degrees), and then recurses with the cursor advanced to
`points[i+1] + unit(v2) * cut - corner_safety_overlap * unit(v2)`. -/
theorem C3_straight_and_cursor (r cso : ℝ) (p0 p1 p2 : Pt) (rest : List Pt) (seg : Pt) :
    synthLoop r cso (p2 :: rest) p0 p1 seg =
      { synthLoop r cso rest p1 p2
          (p1 +
            (vprod_sign (p1 - p0) (p2 - p1) * r / Real.tan ((π - turnAngle p0 p1 p2) / 2)) •
              ((1 / vlen (p2 - p1)) • (p2 - p1)) -
            cso • ((1 / vlen (p2 - p1)) • (p2 - p1))) with
        pieces := Piece.straight
            (ptDist seg p1 -
              vprod_sign (p1 - p0) (p2 - p1) * r / Real.tan ((π - turnAngle p0 p1 p2) / 2) + cso)
            (180 / π * atan2 (p1.2 - seg.2) (p1.1 - seg.1)) seg ::
          (stepArcs r p0 p1 p2 ++
            (synthLoop r cso rest p1 p2
              (p1 +
                (vprod_sign (p1 - p0) (p2 - p1) * r /
                  Real.tan ((π - turnAngle p0 p1 p2) / 2)) •
                  ((1 / vlen (p2 - p1)) • (p2 - p1)) -
                cso • ((1 / vlen (p2 - p1)) • (p2 - p1)))).pieces) } := by
  have hseg :
      p1 +
          ((1 / vlen (p2 - p1)) *
            (vprod_sign (p1 - p0) (p2 - p1) * r / Real.tan ((π - turnAngle p0 p1 p2) / 2))) •
            (p2 - p1) -
          (cso / vlen (p2 - p1)) • (p2 - p1) =
        p1 +
          (vprod_sign (p1 - p0) (p2 - p1) * r / Real.tan ((π - turnAngle p0 p1 p2) / 2)) •
            ((1 / vlen (p2 - p1)) • (p2 - p1)) -
          cso • ((1 / vlen (p2 - p1)) • (p2 - p1)) := by
    module
  rw [synthLoop_cons, hseg]

/-- C7: the loop emits a curved cell at an interior vertex iff the turn
magnitude `|alpha2 - alpha1|` is at least `min_angle = 1e-5`; the emitted
cell has turn `alpha2 - alpha1`, rotation `alpha1` in degrees minus
`vprod_sign(v1, v2) * 90`, and is placed at `corner_pos`. -/
theorem C7_arc_emission (r : ℝ) (p0 p1 p2 : Pt) :
    (stepArcs r p0 p1 p2 ≠ [] ↔ min_angle ≤ |turnAngle p0 p1 p2|) ∧
      (min_angle ≤ |turnAngle p0 p1 p2| →
        stepArcs r p0 p1 p2 =
          [Piece.curved (turnAngle p0 p1 p2)
            (atan2 (p1 - p0).2 (p1 - p0).1 / π * 180.0 - vprod_sign (p1 - p0) (p2 - p1) * 90)
            (get_corner_data p0 p1 p2 r).corner_pos]) := by
  rw [stepArcs_eq]
  by_cases h : min_angle ≤ |turnAngle p0 p1 p2| <;> simp [h]

/-- C6: `produce_end_termination` always emits exactly one keep-out polygon,
whose vertices use half-width `a/2 + b + margin` and length
`term_len + margin` (even for `term_len = 0`), and emits a cap polygon iff
`term_len > 0`; consequently `produce_waveguide` with `term1 = term2 = 0`
emits no cap polygons but still two keep-out polygons. -/
theorem C6_termination_polys (r cso a b margin tl : ℝ) (q1 q2 p0 p1 : Pt) (rest : List Pt) :
    keepoutCount (produce_end_termination a b margin q1 q2 tl) = 1 ∧
      Piece.keepoutPoly [q2 + (a / 2 + b + margin) • r270 ((1 / ptDist q1 q2) • (q2 - q1)),
          q2 + (a / 2 + b + margin) • r270 ((1 / ptDist q1 q2) • (q2 - q1)) +
            (tl + margin) • ((1 / ptDist q1 q2) • (q2 - q1)),
          q2 + (-(a / 2) - b - margin) • r270 ((1 / ptDist q1 q2) • (q2 - q1)) +
            (tl + margin) • ((1 / ptDist q1 q2) • (q2 - q1)),
          q2 + (-(a / 2) - b - margin) • r270 ((1 / ptDist q1 q2) • (q2 - q1))] ∈
        produce_end_termination a b margin q1 q2 tl ∧
      capCount (produce_end_termination a b margin q1 q2 tl) = (if 0 < tl then 1 else 0) ∧
      capCount ((produce_waveguide r cso 0 0 a b margin (p0 :: p1 :: rest)).getD []) = 0 ∧
      keepoutCount ((produce_waveguide r cso 0 0 a b margin (p0 :: p1 :: rest)).getD []) = 2 := by
  refine ⟨termination_keepoutCount a b margin q1 q2 tl, ?_,
    termination_capCount a b margin q1 q2 tl, ?_, ?_⟩
  · simp only [produce_end_termination]
    exact List.mem_append_right _ (List.mem_singleton.mpr rfl)
  · simp only [produce_waveguide, Option.getD_some]
    simp only [capCount, List.countP_append, List.countP_cons]
    have h1 : capCount (produce_end_termination a b margin p1 p0 0) = 0 := by
      rw [termination_capCount]; simp
    have h2 : capCount (produce_end_termination a b margin
        (synthLoop r cso rest p0 p1 p0).pen (synthLoop r cso rest p0 p1 p0).fin 0) = 0 := by
      rw [termination_capCount]; simp
    have h3 := synthLoop_capCount r cso rest p0 p1 p0
    simp only [capCount] at h1 h2 h3
    simp [h1, h2, h3, isCapPiece]
  · simp only [produce_waveguide, Option.getD_some]
    simp only [keepoutCount, List.countP_append, List.countP_cons]
    have h1 := termination_keepoutCount a b margin p1 p0 0
    have h2 := termination_keepoutCount a b margin
      (synthLoop r cso rest p0 p1 p0).pen (synthLoop r cso rest p0 p1 p0).fin 0
    have h3 := synthLoop_keepoutCount r cso rest p0 p1 p0
    simp only [keepoutCount] at h1 h2 h3
    simp [h1, h2, h3, isKeepoutPiece]

/-! ### Continuity-verifier lemmas -/

theorem contLoop_true_iff (endpoints : List (Pt × Pt)) (tol : ℝ) (idxs : List ℕ) (cnt : ℕ)
    (hcnt : cnt ≤ 2) :
    contLoop endpoints tol idxs cnt = true ↔
      cnt + (idxs.map (unmatchedInc endpoints tol)).sum ≤ 2 := by
  induction idxs generalizing cnt with
  | nil => simp [contLoop, hcnt]
  | cons i rest ih =>
    simp only [contLoop, List.map_cons, List.sum_cons]
    by_cases h : 2 < cnt + unmatchedInc endpoints tol i
    · rw [if_pos h]
      simp only [Bool.false_eq_true, false_iff]
      omega
    · rw [if_neg h, ih _ (by omega)]
      omega

theorem is_continuous_iff_le_two (endpoints : List (Pt × Pt)) (tol : ℝ) :
    is_continuous endpoints tol = true ↔ numUnmatched endpoints tol ≤ 2 := by
  unfold is_continuous numUnmatched
  simpa using contLoop_true_iff endpoints tol (List.range endpoints.length) 0 (by omega)

/-- C5: `is_continuous` returns true iff the total number of unmatched
endpoints, over all pieces whose endpoints do not coincide, is at most 2;
pieces with coincident endpoints impose no connectivity requirement (their
contribution to `numUnmatched` is 0 by definition of `unmatchedInc`). -/
theorem C5_continuous_iff_count (endpoints : List (Pt × Pt)) (tol : ℝ) :
    is_continuous endpoints tol = true ↔ numUnmatched endpoints tol ≤ 2 :=
  is_continuous_iff_le_two endpoints tol

theorem list_range_map_sum (n : ℕ) (f : ℕ → ℕ) :
    ((List.range n).map f).sum = ∑ k ∈ Finset.range n, f k := by
  induction n with
  | zero => simp
  | succ n ih =>
    rw [List.range_succ, List.map_append, List.sum_append, Finset.sum_range_succ, ih]
    simp

theorem ptDist_horiz (x1 x2 y : ℝ) : ptDist (x1, y) (x2, y) = |x2 - x1| := by
  unfold ptDist vlen
  have h1 : (((x2, y) : Pt) - (x1, y)).1 = x2 - x1 := rfl
  have h2 : (((x2, y) : Pt) - (x1, y)).2 = 0 := by
    show y - y = 0
    ring
  rw [h1, h2]
  rw [show (x2 - x1) ^ 2 + (0 : ℝ) ^ 2 = (x2 - x1) ^ 2 from by ring, Real.sqrt_sq_eq_abs]

theorem foundConn_pair_zero (A B : Pt × Pt) (tol : ℝ) (p : Pt) :
    foundConn [A, B] tol 0 p ↔ ptDist p B.2 < tol ∨ ptDist p B.1 < tol := by
  unfold foundConn
  constructor
  · rintro ⟨j, hj, hne, h⟩
    simp only [List.length_cons, List.length_nil] at hj
    have hj1 : j = 1 := by omega
    subst hj1
    simpa [List.getD] using h
  · intro h
    exact ⟨1, by simp, by omega, by simpa [List.getD] using h⟩

theorem foundConn_pair_one (A B : Pt × Pt) (tol : ℝ) (p : Pt) :
    foundConn [A, B] tol 1 p ↔ ptDist p A.2 < tol ∨ ptDist p A.1 < tol := by
  unfold foundConn
  constructor
  · rintro ⟨j, hj, hne, h⟩
    simp only [List.length_cons, List.length_nil] at hj
    have hj0 : j = 0 := by omega
    subst hj0
    simpa [List.getD] using h
  · intro h
    exact ⟨0, by simp, by omega, by simpa [List.getD] using h⟩

/-- C9: the endpoint-match comparison in `is_continuous` is strict.  Two
pieces on a line whose nearest endpoints are exactly `tol` apart are not
considered connected at tolerance `tol` (4 unmatched endpoints, result
false), while at tolerance `2*tol` the same pair is connected (2 unmatched
endpoints, result true) even though the two far endpoint distances equal
`2*tol` exactly. -/
theorem C9_strict_tolerance (t : ℝ) (ht : 0 < t) :
    is_continuous [(((0 : ℝ), (0 : ℝ)), (t, 0)), ((2 * t, 0), (3 * t, 0))] t = false ∧
      is_continuous [(((0 : ℝ), (0 : ℝ)), (t, 0)), ((2 * t, 0), (3 * t, 0))] (2 * t) = true := by
  have hd01 : ptDist ((0 : ℝ), (0 : ℝ)) (t, 0) = t := by
    rw [ptDist_horiz]; rw [sub_zero, abs_of_pos ht]
  have hd23 : ptDist ((2 * t, 0) : Pt) ((3 * t, 0) : Pt) = t := by
    rw [ptDist_horiz]
    rw [show 3 * t - 2 * t = t from by ring, abs_of_pos ht]
  have hd03 : ptDist ((0 : ℝ), (0 : ℝ)) ((3 * t, 0) : Pt) = 3 * t := by
    rw [ptDist_horiz]; rw [sub_zero, abs_of_pos (by linarith)]
  have hd02 : ptDist ((0 : ℝ), (0 : ℝ)) ((2 * t, 0) : Pt) = 2 * t := by
    rw [ptDist_horiz]; rw [sub_zero, abs_of_pos (by linarith)]
  have hd13 : ptDist ((t, 0) : Pt) ((3 * t, 0) : Pt) = 2 * t := by
    rw [ptDist_horiz]
    rw [show 3 * t - t = 2 * t from by ring, abs_of_pos (by linarith)]
  have hd12 : ptDist ((t, 0) : Pt) ((2 * t, 0) : Pt) = t := by
    rw [ptDist_horiz]
    rw [show 2 * t - t = t from by ring, abs_of_pos ht]
  have hd20 : ptDist ((2 * t, 0) : Pt) ((0 : ℝ), (0 : ℝ)) = 2 * t := by
    rw [ptDist_comm]; exact hd02
  have hd21 : ptDist ((2 * t, 0) : Pt) ((t, 0) : Pt) = t := by
    rw [ptDist_comm]; exact hd12
  have hd30 : ptDist ((3 * t, 0) : Pt) ((0 : ℝ), (0 : ℝ)) = 3 * t := by
    rw [ptDist_comm]; exact hd03
  have hd31 : ptDist ((3 * t, 0) : Pt) ((t, 0) : Pt) = 2 * t := by
    rw [ptDist_comm]; exact hd13
  have hne0 : ptDist ((0 : ℝ), (0 : ℝ)) (t, 0) ≠ 0 := by rw [hd01]; exact ne_of_gt ht
  have hne1 : ptDist ((2 * t, 0) : Pt) ((3 * t, 0) : Pt) ≠ 0 := by
    rw [hd23]; exact ne_of_gt ht
  constructor
  · have hf0a : ¬ foundConn [(((0 : ℝ), (0 : ℝ)), (t, 0)), ((2 * t, 0), (3 * t, 0))] t 0
        ((0 : ℝ), (0 : ℝ)) := by
      rw [foundConn_pair_zero]
      push_neg
      constructor
      · rw [show ((((2 * t, 0), (3 * t, 0)) : Pt × Pt)).2 = ((3 * t, 0) : Pt) from rfl, hd03]
        linarith
      · rw [show ((((2 * t, 0), (3 * t, 0)) : Pt × Pt)).1 = ((2 * t, 0) : Pt) from rfl, hd02]
        linarith
    have hf0b : ¬ foundConn [(((0 : ℝ), (0 : ℝ)), (t, 0)), ((2 * t, 0), (3 * t, 0))] t 0
        ((t, 0) : Pt) := by
      rw [foundConn_pair_zero]
      push_neg
      constructor
      · rw [show ((((2 * t, 0), (3 * t, 0)) : Pt × Pt)).2 = ((3 * t, 0) : Pt) from rfl, hd13]
        linarith
      · rw [show ((((2 * t, 0), (3 * t, 0)) : Pt × Pt)).1 = ((2 * t, 0) : Pt) from rfl, hd12]
    have hf1a : ¬ foundConn [(((0 : ℝ), (0 : ℝ)), (t, 0)), ((2 * t, 0), (3 * t, 0))] t 1
        ((2 * t, 0) : Pt) := by
      rw [foundConn_pair_one]
      push_neg
      constructor
      · rw [show ((((0 : ℝ), (0 : ℝ)), ((t, 0) : Pt)) : Pt × Pt).2 = ((t, 0) : Pt) from rfl, hd21]
      · rw [show ((((0 : ℝ), (0 : ℝ)), ((t, 0) : Pt)) : Pt × Pt).1 = (((0 : ℝ), (0 : ℝ)) : Pt)
          from rfl, hd20]
        linarith
    have hf1b : ¬ foundConn [(((0 : ℝ), (0 : ℝ)), (t, 0)), ((2 * t, 0), (3 * t, 0))] t 1
        ((3 * t, 0) : Pt) := by
      rw [foundConn_pair_one]
      push_neg
      constructor
      · rw [show ((((0 : ℝ), (0 : ℝ)), ((t, 0) : Pt)) : Pt × Pt).2 = ((t, 0) : Pt) from rfl, hd31]
        linarith
      · rw [show ((((0 : ℝ), (0 : ℝ)), ((t, 0) : Pt)) : Pt × Pt).1 = (((0 : ℝ), (0 : ℝ)) : Pt)
          from rfl, hd30]
        linarith
    have hinc0 : unmatchedInc [(((0 : ℝ), (0 : ℝ)), (t, 0)), ((2 * t, 0), (3 * t, 0))] t 0 = 2 := by
      show (if ptDist ((0 : ℝ), (0 : ℝ)) (t, 0) ≠ 0 then
          (if foundConn [(((0 : ℝ), (0 : ℝ)), (t, 0)), ((2 * t, 0), (3 * t, 0))] t 0
              ((0 : ℝ), (0 : ℝ)) then 0 else 1) +
            (if foundConn [(((0 : ℝ), (0 : ℝ)), (t, 0)), ((2 * t, 0), (3 * t, 0))] t 0
              ((t, 0) : Pt) then 0 else 1)
        else 0) = 2
      rw [if_pos hne0, if_neg hf0a, if_neg hf0b]
    have hinc1 : unmatchedInc [(((0 : ℝ), (0 : ℝ)), (t, 0)), ((2 * t, 0), (3 * t, 0))] t 1 = 2 := by
      show (if ptDist ((2 * t, 0) : Pt) ((3 * t, 0) : Pt) ≠ 0 then
          (if foundConn [(((0 : ℝ), (0 : ℝ)), (t, 0)), ((2 * t, 0), (3 * t, 0))] t 1
              ((2 * t, 0) : Pt) then 0 else 1) +
            (if foundConn [(((0 : ℝ), (0 : ℝ)), (t, 0)), ((2 * t, 0), (3 * t, 0))] t 1
              ((3 * t, 0) : Pt) then 0 else 1)
        else 0) = 2
      rw [if_pos hne1, if_neg hf1a, if_neg hf1b]
    have hsum : numUnmatched [(((0 : ℝ), (0 : ℝ)), (t, 0)), ((2 * t, 0), (3 * t, 0))] t = 4 := by
      unfold numUnmatched
      rw [show List.range ([(((0 : ℝ), (0 : ℝ)), ((t, 0) : Pt)),
        (((2 * t, 0) : Pt), ((3 * t, 0) : Pt))].length) = [0, 1] from rfl]
      rw [List.map_cons, List.map_cons, List.map_nil, List.sum_cons, List.sum_cons,
        List.sum_nil, hinc0, hinc1]
      norm_num
    have hnot : ¬ (is_continuous [(((0 : ℝ), (0 : ℝ)), (t, 0)), ((2 * t, 0), (3 * t, 0))] t
        = true) := by
      rw [is_continuous_iff_le_two, hsum]
      omega
    exact Bool.eq_false_iff.mpr hnot
  · have hf0a : ¬ foundConn [(((0 : ℝ), (0 : ℝ)), (t, 0)), ((2 * t, 0), (3 * t, 0))] (2 * t) 0
        ((0 : ℝ), (0 : ℝ)) := by
      rw [foundConn_pair_zero]
      push_neg
      constructor
      · rw [show ((((2 * t, 0), (3 * t, 0)) : Pt × Pt)).2 = ((3 * t, 0) : Pt) from rfl, hd03]
        linarith
      · rw [show ((((2 * t, 0), (3 * t, 0)) : Pt × Pt)).1 = ((2 * t, 0) : Pt) from rfl, hd02]
    have hf0b : foundConn [(((0 : ℝ), (0 : ℝ)), (t, 0)), ((2 * t, 0), (3 * t, 0))] (2 * t) 0
        ((t, 0) : Pt) := by
      rw [foundConn_pair_zero]
      right
      rw [show ((((2 * t, 0), (3 * t, 0)) : Pt × Pt)).1 = ((2 * t, 0) : Pt) from rfl, hd12]
      linarith
    have hf1a : foundConn [(((0 : ℝ), (0 : ℝ)), (t, 0)), ((2 * t, 0), (3 * t, 0))] (2 * t) 1
        ((2 * t, 0) : Pt) := by
      rw [foundConn_pair_one]
      left
      rw [show ((((0 : ℝ), (0 : ℝ)), ((t, 0) : Pt)) : Pt × Pt).2 = ((t, 0) : Pt) from rfl, hd21]
      linarith
    have hf1b : ¬ foundConn [(((0 : ℝ), (0 : ℝ)), (t, 0)), ((2 * t, 0), (3 * t, 0))] (2 * t) 1
        ((3 * t, 0) : Pt) := by
      rw [foundConn_pair_one]
      push_neg
      constructor
      · rw [show ((((0 : ℝ), (0 : ℝ)), ((t, 0) : Pt)) : Pt × Pt).2 = ((t, 0) : Pt) from rfl, hd31]
      · rw [show ((((0 : ℝ), (0 : ℝ)), ((t, 0) : Pt)) : Pt × Pt).1 = (((0 : ℝ), (0 : ℝ)) : Pt)
          from rfl, hd30]
        linarith
    have hinc0 : unmatchedInc [(((0 : ℝ), (0 : ℝ)), (t, 0)), ((2 * t, 0), (3 * t, 0))]
        (2 * t) 0 = 1 := by
      show (if ptDist ((0 : ℝ), (0 : ℝ)) (t, 0) ≠ 0 then
          (if foundConn [(((0 : ℝ), (0 : ℝ)), (t, 0)), ((2 * t, 0), (3 * t, 0))] (2 * t) 0
              ((0 : ℝ), (0 : ℝ)) then 0 else 1) +
            (if foundConn [(((0 : ℝ), (0 : ℝ)), (t, 0)), ((2 * t, 0), (3 * t, 0))] (2 * t) 0
              ((t, 0) : Pt) then 0 else 1)
        else 0) = 1
      rw [if_pos hne0, if_neg hf0a, if_pos hf0b]
    have hinc1 : unmatchedInc [(((0 : ℝ), (0 : ℝ)), (t, 0)), ((2 * t, 0), (3 * t, 0))]
        (2 * t) 1 = 1 := by
      show (if ptDist ((2 * t, 0) : Pt) ((3 * t, 0) : Pt) ≠ 0 then
          (if foundConn [(((0 : ℝ), (0 : ℝ)), (t, 0)), ((2 * t, 0), (3 * t, 0))] (2 * t) 1
              ((2 * t, 0) : Pt) then 0 else 1) +
            (if foundConn [(((0 : ℝ), (0 : ℝ)), (t, 0)), ((2 * t, 0), (3 * t, 0))] (2 * t) 1
              ((3 * t, 0) : Pt) then 0 else 1)
        else 0) = 1
      rw [if_pos hne1, if_pos hf1a, if_neg hf1b]
    have hsum : numUnmatched [(((0 : ℝ), (0 : ℝ)), (t, 0)), ((2 * t, 0), (3 * t, 0))]
        (2 * t) = 2 := by
      unfold numUnmatched
      rw [show List.range ([(((0 : ℝ), (0 : ℝ)), ((t, 0) : Pt)),
        (((2 * t, 0) : Pt), ((3 * t, 0) : Pt))].length) = [0, 1] from rfl]
      rw [List.map_cons, List.map_cons, List.map_nil, List.sum_cons, List.sum_cons,
        List.sum_nil, hinc0, hinc1]
      norm_num
    rw [is_continuous_iff_le_two, hsum]

/-- Witness for C9 at tolerance 1 (pieces at exact distances 1 and 2). -/
theorem C9_witness :
    is_continuous [(((0 : ℝ), (0 : ℝ)), (1, 0)), ((2 * 1, 0), (3 * 1, 0))] 1 = false ∧
      is_continuous [(((0 : ℝ), (0 : ℝ)), (1, 0)), ((2 * 1, 0), (3 * 1, 0))] (2 * 1) = true :=
  C9_strict_tolerance 1 (by norm_num)

/-! ### Trigonometric core: tangency of the arc with the trimmed legs -/

theorem div_tan_eq (x h : ℝ) : x / Real.tan h = x * Real.cos h / Real.sin h := by
  rw [Real.tan_eq_sin_div_cos]
  rcases eq_or_ne (Real.cos h) 0 with hc | hc
  · simp [hc]
  · rcases eq_or_ne (Real.sin h) 0 with hs | hs
    · simp [hs]
    · field_simp

theorem cos_atan2 (v : Pt) (hv : v ≠ 0) :
    Real.cos (atan2 v.2 v.1) = 1 / vlen v * v.1 :=
  congrArg Prod.fst (cos_sin_atan2 hv)

theorem sin_atan2 (v : Pt) (hv : v ≠ 0) :
    Real.sin (atan2 v.2 v.1) = 1 / vlen v * v.2 :=
  congrArg Prod.snd (cos_sin_atan2 hv)

/-- The 2-D cross product equals the product of the lengths times the sine of
the difference of the atan2 headings. -/
theorem cross_eq_sin (v w : Pt) (hv : v ≠ 0) (hw : w ≠ 0) :
    v.1 * w.2 - v.2 * w.1 =
      vlen v * vlen w * Real.sin (atan2 w.2 w.1 - atan2 v.2 v.1) := by
  rw [Real.sin_sub, cos_atan2 v hv, sin_atan2 v hv, cos_atan2 w hw, sin_atan2 w hw]
  have h1 : vlen v ≠ 0 := ne_of_gt (vlen_pos hv)
  have h2 : vlen w ≠ 0 := ne_of_gt (vlen_pos hw)
  field_simp
  ring

theorem tid1x (a b r s : ℝ) (hs : s = 1 ∨ s = -1)
    (hsin : Real.sin ((π - (b - a)) / 2) ≠ 0) :
    Real.cos ((π - (b - a)) / 2 + b) * (s * r / Real.sin ((π - (b - a)) / 2)) +
        r * Real.cos (a - s * (π / 2)) =
      -(s * r / Real.tan ((π - (b - a)) / 2) * Real.cos a) := by
  rw [div_tan_eq]
  have hb : b = a + π - 2 * ((π - (b - a)) / 2) := by ring
  set h := (π - (b - a)) / 2 with hh
  rw [hb]
  have harg : h + (a + π - 2 * h) = π + a - h := by ring
  rw [harg, Real.cos_sub, Real.cos_add, Real.sin_add, Real.cos_pi, Real.sin_pi]
  rcases hs with rfl | rfl
  · rw [show a - 1 * (π / 2) = a - π / 2 from by ring, Real.cos_sub, Real.cos_pi_div_two,
      Real.sin_pi_div_two]
    field_simp
    ring
  · rw [show a - -1 * (π / 2) = a + π / 2 from by ring, Real.cos_add, Real.cos_pi_div_two,
      Real.sin_pi_div_two]
    field_simp
    ring

theorem tid1y (a b r s : ℝ) (hs : s = 1 ∨ s = -1)
    (hsin : Real.sin ((π - (b - a)) / 2) ≠ 0) :
    Real.sin ((π - (b - a)) / 2 + b) * (s * r / Real.sin ((π - (b - a)) / 2)) +
        r * Real.sin (a - s * (π / 2)) =
      -(s * r / Real.tan ((π - (b - a)) / 2) * Real.sin a) := by
  rw [div_tan_eq]
  have hb : b = a + π - 2 * ((π - (b - a)) / 2) := by ring
  set h := (π - (b - a)) / 2 with hh
  rw [hb]
  have harg : h + (a + π - 2 * h) = π + a - h := by ring
  rw [harg, Real.sin_sub, Real.cos_add, Real.sin_add, Real.cos_pi, Real.sin_pi]
  rcases hs with rfl | rfl
  · rw [show a - 1 * (π / 2) = a - π / 2 from by ring, Real.sin_sub, Real.cos_pi_div_two,
      Real.sin_pi_div_two]
    field_simp
    ring
  · rw [show a - -1 * (π / 2) = a + π / 2 from by ring, Real.sin_add, Real.cos_pi_div_two,
      Real.sin_pi_div_two]
    field_simp
    ring

theorem tid2x (a b r s : ℝ) (hs : s = 1 ∨ s = -1)
    (hsin : Real.sin ((π - (b - a)) / 2) ≠ 0) :
    Real.cos ((π - (b - a)) / 2 + b) * (s * r / Real.sin ((π - (b - a)) / 2)) +
        r * Real.cos (a - s * (π / 2) + (b - a)) =
      s * r / Real.tan ((π - (b - a)) / 2) * Real.cos b := by
  rw [div_tan_eq]
  set h := (π - (b - a)) / 2 with hh
  rw [Real.cos_add (h) b]
  rcases hs with rfl | rfl
  · rw [show a - 1 * (π / 2) + (b - a) = b - π / 2 from by ring, Real.cos_sub,
      Real.cos_pi_div_two, Real.sin_pi_div_two]
    field_simp
    ring
  · rw [show a - -1 * (π / 2) + (b - a) = b + π / 2 from by ring, Real.cos_add,
      Real.cos_pi_div_two, Real.sin_pi_div_two]
    field_simp
    ring

theorem tid2y (a b r s : ℝ) (hs : s = 1 ∨ s = -1)
    (hsin : Real.sin ((π - (b - a)) / 2) ≠ 0) :
    Real.sin ((π - (b - a)) / 2 + b) * (s * r / Real.sin ((π - (b - a)) / 2)) +
        r * Real.sin (a - s * (π / 2) + (b - a)) =
      s * r / Real.tan ((π - (b - a)) / 2) * Real.sin b := by
  rw [div_tan_eq]
  set h := (π - (b - a)) / 2 with hh
  rw [Real.sin_add (h) b]
  rcases hs with rfl | rfl
  · rw [show a - 1 * (π / 2) + (b - a) = b - π / 2 from by ring, Real.sin_sub,
      Real.cos_pi_div_two, Real.sin_pi_div_two]
    field_simp
    ring
  · rw [show a - -1 * (π / 2) + (b - a) = b + π / 2 from by ring, Real.sin_add,
      Real.cos_pi_div_two, Real.sin_pi_div_two]
    field_simp
    ring

/-- The global start point of the placed arc (corner_pos plus radius at the
rotation angle alpha1 - s*90 degrees) is exactly the incoming tangent point
p1 - cut * unit(alpha1). -/
theorem corner_arc_start (p0 p1 p2 : Pt) (r : ℝ)
    (hs : vprod_sign (p1 - p0) (p2 - p1) = 1 ∨ vprod_sign (p1 - p0) (p2 - p1) = -1)
    (hsin : Real.sin ((π - (atan2 (p2 - p1).2 (p2 - p1).1 - atan2 (p1 - p0).2 (p1 - p0).1)) / 2) ≠ 0) :
    (get_corner_data p0 p1 p2 r).corner_pos +
        r • ((Real.cos (atan2 (p1 - p0).2 (p1 - p0).1 - vprod_sign (p1 - p0) (p2 - p1) * (π / 2)),
          Real.sin (atan2 (p1 - p0).2 (p1 - p0).1 - vprod_sign (p1 - p0) (p2 - p1) * (π / 2))) : Pt) =
      p1 - (vprod_sign (p1 - p0) (p2 - p1) * r / Real.tan ((π - (atan2 (p2 - p1).2 (p2 - p1).1 - atan2 (p1 - p0).2 (p1 - p0).1)) / 2)) •
        ((Real.cos (atan2 (p1 - p0).2 (p1 - p0).1), Real.sin (atan2 (p1 - p0).2 (p1 - p0).1)) : Pt) := by
  have hx := tid1x (atan2 (p1 - p0).2 (p1 - p0).1) (atan2 (p2 - p1).2 (p2 - p1).1) r (vprod_sign (p1 - p0) (p2 - p1)) hs hsin
  have hy := tid1y (atan2 (p1 - p0).2 (p1 - p0).1) (atan2 (p2 - p1).2 (p2 - p1).1) r (vprod_sign (p1 - p0) (p2 - p1)) hs hsin
  apply Prod.ext
  · show p1.1 +
        Real.cos ((π - (atan2 (p2 - p1).2 (p2 - p1).1 - atan2 (p1 - p0).2 (p1 - p0).1)) / 2 + atan2 (p2 - p1).2 (p2 - p1).1) *
          (vprod_sign (p1 - p0) (p2 - p1) * r / Real.sin ((π - (atan2 (p2 - p1).2 (p2 - p1).1 - atan2 (p1 - p0).2 (p1 - p0).1)) / 2)) +
        r * Real.cos (atan2 (p1 - p0).2 (p1 - p0).1 - vprod_sign (p1 - p0) (p2 - p1) * (π / 2)) =
      p1.1 - vprod_sign (p1 - p0) (p2 - p1) * r / Real.tan ((π - (atan2 (p2 - p1).2 (p2 - p1).1 - atan2 (p1 - p0).2 (p1 - p0).1)) / 2) * Real.cos (atan2 (p1 - p0).2 (p1 - p0).1)
    linarith [hx]
  · show p1.2 +
        Real.sin ((π - (atan2 (p2 - p1).2 (p2 - p1).1 - atan2 (p1 - p0).2 (p1 - p0).1)) / 2 + atan2 (p2 - p1).2 (p2 - p1).1) *
          (vprod_sign (p1 - p0) (p2 - p1) * r / Real.sin ((π - (atan2 (p2 - p1).2 (p2 - p1).1 - atan2 (p1 - p0).2 (p1 - p0).1)) / 2)) +
        r * Real.sin (atan2 (p1 - p0).2 (p1 - p0).1 - vprod_sign (p1 - p0) (p2 - p1) * (π / 2)) =
      p1.2 - vprod_sign (p1 - p0) (p2 - p1) * r / Real.tan ((π - (atan2 (p2 - p1).2 (p2 - p1).1 - atan2 (p1 - p0).2 (p1 - p0).1)) / 2) * Real.sin (atan2 (p1 - p0).2 (p1 - p0).1)
    linarith [hy]

/-- The global end point of the placed arc (corner_pos plus radius at the
rotation angle plus the turn) is exactly the outgoing tangent point
p1 + cut * unit(alpha2). -/
theorem corner_arc_end (p0 p1 p2 : Pt) (r : ℝ)
    (hs : vprod_sign (p1 - p0) (p2 - p1) = 1 ∨ vprod_sign (p1 - p0) (p2 - p1) = -1)
    (hsin : Real.sin ((π - (atan2 (p2 - p1).2 (p2 - p1).1 - atan2 (p1 - p0).2 (p1 - p0).1)) / 2) ≠ 0) :
    (get_corner_data p0 p1 p2 r).corner_pos +
        r • ((Real.cos (atan2 (p1 - p0).2 (p1 - p0).1 - vprod_sign (p1 - p0) (p2 - p1) * (π / 2) + (atan2 (p2 - p1).2 (p2 - p1).1 - atan2 (p1 - p0).2 (p1 - p0).1)),
          Real.sin (atan2 (p1 - p0).2 (p1 - p0).1 - vprod_sign (p1 - p0) (p2 - p1) * (π / 2) + (atan2 (p2 - p1).2 (p2 - p1).1 - atan2 (p1 - p0).2 (p1 - p0).1))) : Pt) =
      p1 + (vprod_sign (p1 - p0) (p2 - p1) * r / Real.tan ((π - (atan2 (p2 - p1).2 (p2 - p1).1 - atan2 (p1 - p0).2 (p1 - p0).1)) / 2)) •
        ((Real.cos (atan2 (p2 - p1).2 (p2 - p1).1), Real.sin (atan2 (p2 - p1).2 (p2 - p1).1)) : Pt) := by
  have hx := tid2x (atan2 (p1 - p0).2 (p1 - p0).1) (atan2 (p2 - p1).2 (p2 - p1).1) r (vprod_sign (p1 - p0) (p2 - p1)) hs hsin
  have hy := tid2y (atan2 (p1 - p0).2 (p1 - p0).1) (atan2 (p2 - p1).2 (p2 - p1).1) r (vprod_sign (p1 - p0) (p2 - p1)) hs hsin
  apply Prod.ext
  · show p1.1 +
        Real.cos ((π - (atan2 (p2 - p1).2 (p2 - p1).1 - atan2 (p1 - p0).2 (p1 - p0).1)) / 2 + atan2 (p2 - p1).2 (p2 - p1).1) *
          (vprod_sign (p1 - p0) (p2 - p1) * r / Real.sin ((π - (atan2 (p2 - p1).2 (p2 - p1).1 - atan2 (p1 - p0).2 (p1 - p0).1)) / 2)) +
        r * Real.cos (atan2 (p1 - p0).2 (p1 - p0).1 - vprod_sign (p1 - p0) (p2 - p1) * (π / 2) + (atan2 (p2 - p1).2 (p2 - p1).1 - atan2 (p1 - p0).2 (p1 - p0).1)) =
      p1.1 + vprod_sign (p1 - p0) (p2 - p1) * r / Real.tan ((π - (atan2 (p2 - p1).2 (p2 - p1).1 - atan2 (p1 - p0).2 (p1 - p0).1)) / 2) * Real.cos (atan2 (p2 - p1).2 (p2 - p1).1)
    linarith [hx]
  · show p1.2 +
        Real.sin ((π - (atan2 (p2 - p1).2 (p2 - p1).1 - atan2 (p1 - p0).2 (p1 - p0).1)) / 2 + atan2 (p2 - p1).2 (p2 - p1).1) *
          (vprod_sign (p1 - p0) (p2 - p1) * r / Real.sin ((π - (atan2 (p2 - p1).2 (p2 - p1).1 - atan2 (p1 - p0).2 (p1 - p0).1)) / 2)) +
        r * Real.sin (atan2 (p1 - p0).2 (p1 - p0).1 - vprod_sign (p1 - p0) (p2 - p1) * (π / 2) + (atan2 (p2 - p1).2 (p2 - p1).1 - atan2 (p1 - p0).2 (p1 - p0).1)) =
      p1.2 + vprod_sign (p1 - p0) (p2 - p1) * r / Real.tan ((π - (atan2 (p2 - p1).2 (p2 - p1).1 - atan2 (p1 - p0).2 (p1 - p0).1)) / 2) * Real.sin (atan2 (p2 - p1).2 (p2 - p1).1)
    linarith [hy]

/-- Facts about a corner whose turn magnitude lies in [min_angle, π/2]:
the cross-product sign is ±1, the half-angle sine is nonzero, and the
trimmed tangent length `cut` is at most `r`. -/
theorem corner_facts (p0 p1 p2 : Pt) (r : ℝ) (hr : 0 < r)
    (hne1 : p1 - p0 ≠ 0) (hne2 : p2 - p1 ≠ 0)
    (hmin : min_angle ≤ |turnAngle p0 p1 p2|) (hmax : |turnAngle p0 p1 p2| ≤ π / 2) :
    (vprod_sign (p1 - p0) (p2 - p1) = 1 ∨ vprod_sign (p1 - p0) (p2 - p1) = -1) ∧
      Real.sin ((π - turnAngle p0 p1 p2) / 2) ≠ 0 ∧
      vprod_sign (p1 - p0) (p2 - p1) * r / Real.tan ((π - turnAngle p0 p1 p2) / 2) ≤ r := by
  have hπ := Real.pi_pos
  have habs := abs_le.mp hmax
  have hα0 : turnAngle p0 p1 p2 ≠ 0 := by
    intro h0
    rw [h0, abs_zero] at hmin
    norm_num [min_angle] at hmin
  set α := turnAngle p0 p1 p2 with hαdef
  set h := (π - α) / 2 with hhdef
  have hh1 : π / 4 ≤ h := by rw [hhdef]; linarith [habs.2]
  have hh2 : h ≤ 3 * π / 4 := by rw [hhdef]; linarith [habs.1]
  have hsinh : 0 < Real.sin h := Real.sin_pos_of_pos_of_lt_pi (by linarith) (by linarith)
  have hcross : (p1 - p0).1 * (p2 - p1).2 - (p1 - p0).2 * (p2 - p1).1 =
      vlen (p1 - p0) * vlen (p2 - p1) * Real.sin α := by
    rw [hαdef]
    exact cross_eq_sin _ _ hne1 hne2
  have hL1 : 0 < vlen (p1 - p0) := vlen_pos hne1
  have hL2 : 0 < vlen (p2 - p1) := vlen_pos hne2
  rcases lt_or_gt_of_ne hα0 with hneg | hpos
  · have hsin_neg : Real.sin α < 0 :=
      Real.sin_neg_of_neg_of_neg_pi_lt hneg (by linarith [habs.1])
    have hcrossneg : (p1 - p0).1 * (p2 - p1).2 - (p1 - p0).2 * (p2 - p1).1 < 0 := by
      rw [hcross]
      exact mul_neg_of_pos_of_neg (mul_pos hL1 hL2) hsin_neg
    have hsv : vprod_sign (p1 - p0) (p2 - p1) = -1 := by
      unfold vprod_sign
      exact Real.sign_of_neg hcrossneg
    have hsc : 0 ≤ Real.sin h + Real.cos h := by
      have h1 : 0 ≤ Real.sin (h + π / 4) :=
        Real.sin_nonneg_of_nonneg_of_le_pi (by linarith) (by linarith)
      rw [Real.sin_add, Real.cos_pi_div_four, Real.sin_pi_div_four] at h1
      have hs2 : 0 < Real.sqrt 2 := Real.sqrt_pos.mpr (by norm_num)
      nlinarith [h1, hs2]
    refine ⟨Or.inr hsv, ne_of_gt hsinh, ?_⟩
    rw [hsv, div_tan_eq, div_le_iff hsinh]
    nlinarith [mul_nonneg hr.le hsc]
  · have hsin_pos : 0 < Real.sin α := Real.sin_pos_of_pos_of_lt_pi hpos (by linarith [habs.2])
    have hcrosspos : 0 < (p1 - p0).1 * (p2 - p1).2 - (p1 - p0).2 * (p2 - p1).1 := by
      rw [hcross]
      exact mul_pos (mul_pos hL1 hL2) hsin_pos
    have hsv : vprod_sign (p1 - p0) (p2 - p1) = 1 := by
      unfold vprod_sign
      exact Real.sign_of_pos hcrosspos
    have hsc : 0 ≤ Real.sin h - Real.cos h := by
      have h1 : 0 ≤ Real.sin (h - π / 4) :=
        Real.sin_nonneg_of_nonneg_of_le_pi (by linarith) (by linarith)
      rw [Real.sin_sub, Real.cos_pi_div_four, Real.sin_pi_div_four] at h1
      have hs2 : 0 < Real.sqrt 2 := Real.sqrt_pos.mpr (by norm_num)
      nlinarith [h1, hs2]
    refine ⟨Or.inl hsv, ne_of_gt hsinh, ?_⟩
    rw [hsv, div_tan_eq, div_le_iff hsinh]
    nlinarith [mul_nonneg hr.le hsc]

/-! ### Chain of overlapping pieces implies the verifier accepts -/

/-- Consecutive pieces in the list are linked: the second endpoint of piece k
is at distance exactly `g` from the first endpoint of piece k+1. -/
def ChainGap (g : ℝ) (pairs : List (Pt × Pt)) : Prop :=
  ∀ k, k + 1 < pairs.length →
    ptDist (pairs.getD k ((0, 0), (0, 0))).2 (pairs.getD (k + 1) ((0, 0), (0, 0))).1 = g

theorem chain_numUnmatched_le (pairs : List (Pt × Pt)) (g tol : ℝ)
    (hg : g < tol) (hlen : 2 ≤ pairs.length) (hchain : ChainGap g pairs) :
    numUnmatched pairs tol ≤ 2 := by
  obtain ⟨m, hm⟩ : ∃ m, pairs.length = m + 2 := ⟨pairs.length - 2, by omega⟩
  have hfound1 : ∀ k, 0 < k → k < pairs.length →
      foundConn pairs tol k (pairs.getD k ((0, 0), (0, 0))).1 := by
    intro k hk0 hklen
    have hc := hchain (k - 1) (by omega)
    rw [show k - 1 + 1 = k from by omega] at hc
    refine ⟨k - 1, by omega, by omega, Or.inl ?_⟩
    rw [ptDist_comm, hc]
    exact hg
  have hfound2 : ∀ k, k + 1 < pairs.length →
      foundConn pairs tol k (pairs.getD k ((0, 0), (0, 0))).2 := by
    intro k hk
    have hc := hchain k hk
    exact ⟨k + 1, hk, by omega, Or.inr (by rw [hc]; exact hg)⟩
  have hmid : ∀ k, 0 < k → k + 1 < pairs.length → unmatchedInc pairs tol k = 0 := by
    intro k h1 h2
    simp only [unmatchedInc]
    rw [if_pos (hfound1 k h1 (by omega)), if_pos (hfound2 k h2)]
    split <;> rfl
  have h0 : unmatchedInc pairs tol 0 ≤ 1 := by
    simp only [unmatchedInc]
    rw [if_pos (hfound2 0 (by omega))]
    split
    · split <;> norm_num
    · norm_num
  have hlast : unmatchedInc pairs tol (m + 1) ≤ 1 := by
    simp only [unmatchedInc]
    rw [if_pos (hfound1 (m + 1) (by omega) (by omega))]
    split
    · split <;> norm_num
    · norm_num
  unfold numUnmatched
  rw [list_range_map_sum, hm, Finset.sum_range_succ, Finset.sum_range_succ']
  have hmidsum : ∑ k ∈ Finset.range m, unmatchedInc pairs tol (k + 1) = 0 := by
    apply Finset.sum_eq_zero
    intro k hk
    have hkm := Finset.mem_range.mp hk
    exact hmid (k + 1) (by omega) (by omega)
  rw [hmidsum]
  omega

theorem annPairs_cons (r : ℝ) (p : Piece) (ps : List Piece) (pr : Pt × Pt)
    (h : annPair r p = some pr) : annPairs r (p :: ps) = pr :: annPairs r ps := by
  unfold annPairs
  rw [List.filterMap_cons, h]

theorem chainGap_cons2 (g : ℝ) (a b : Pt × Pt) (ps : List (Pt × Pt))
    (hab : ptDist a.2 b.1 = g)
    (hbp : 1 ≤ ps.length → ptDist b.2 (ps.getD 0 ((0, 0), (0, 0))).1 = g)
    (hps : ChainGap g ps) : ChainGap g (a :: b :: ps) := by
  intro k hk
  match k with
  | 0 => simpa using hab
  | 1 =>
    simp only [List.getD_cons_succ, List.getD_cons_zero]
    apply hbp
    simp only [List.length_cons] at hk
    omega
  | (k + 2) =>
    simp only [List.getD_cons_succ]
    apply hps
    simp only [List.length_cons] at hk
    omega

/-- The corner loop, run on a path whose legs all exceed `2r` and whose turns
all lie in `[min_angle, π/2]` in magnitude, started from a cursor lying
strictly before `p1` on the ray `p0 → p1`, emits pieces whose annotation
endpoint pairs (followed by the final straight run `segLast → fin`) form a
chain with consecutive gap exactly `cso`, starting at the cursor. -/
theorem synthLoop_chain (r cso : ℝ) (hr : 0 < r) (hcso : 0 < cso) :
    ∀ (rest : List Pt) (p0 p1 seg : Pt) (d : ℝ),
      LegsOK r (p0 :: p1 :: rest) → TurnsOK (p0 :: p1 :: rest) →
      0 < d → seg = p1 - d • ((1 / vlen (p1 - p0)) • (p1 - p0)) →
      ChainGap cso (annPairs r (synthLoop r cso rest p0 p1 seg).pieces ++
          [((synthLoop r cso rest p0 p1 seg).segLast, (synthLoop r cso rest p0 p1 seg).fin)]) ∧
        ((annPairs r (synthLoop r cso rest p0 p1 seg).pieces ++
            [((synthLoop r cso rest p0 p1 seg).segLast,
              (synthLoop r cso rest p0 p1 seg).fin)]).getD 0 ((0, 0), (0, 0))).1 = seg ∧
        (annPairs r (synthLoop r cso rest p0 p1 seg).pieces ++
            [((synthLoop r cso rest p0 p1 seg).segLast,
              (synthLoop r cso rest p0 p1 seg).fin)]).length = 2 * rest.length + 1 := by
  intro rest
  induction rest with
  | nil =>
    intro p0 p1 seg d hlegs hturns hd hseg
    refine ⟨?_, rfl, rfl⟩
    intro k hk
    simp only [synthLoop, annPairs, List.filterMap_nil, List.nil_append, List.length_append,
      List.length_cons, List.length_nil] at hk
    omega
  | cons p2 rest2 ih =>
    intro p0 p1 seg d hlegs hturns hd hseg
    obtain ⟨hleg1, hlegs2⟩ := hlegs
    obtain ⟨hturn, hturns2⟩ := hturns
    have hleg2 : 2 * r < ptDist p1 p2 := hlegs2.1
    have hL1pos : 0 < vlen (p1 - p0) := by
      show (0 : ℝ) < vlen (p1 - p0)
      have h1 : (0 : ℝ) < ptDist p0 p1 := by linarith
      exact h1
    have hL2pos : 0 < vlen (p2 - p1) := by
      have h1 : (0 : ℝ) < ptDist p1 p2 := by linarith
      exact h1
    have hne1 : p1 - p0 ≠ 0 := by
      intro h0
      rw [h0, vlen_eq_zero_iff.mpr rfl] at hL1pos
      exact lt_irrefl 0 hL1pos
    have hne2 : p2 - p1 ≠ 0 := by
      intro h0
      rw [h0, vlen_eq_zero_iff.mpr rfl] at hL2pos
      exact lt_irrefl 0 hL2pos
    obtain ⟨hs, hsin, hcutle⟩ := corner_facts p0 p1 p2 r hr hne1 hne2 hturn.1 hturn.2
    have hu1len : vlen ((1 / vlen (p1 - p0)) • (p1 - p0)) = 1 := by
      rw [vlen_smul, abs_of_pos (by positivity), one_div,
        inv_mul_cancel₀ (ne_of_gt hL1pos)]
    have hu2len : vlen ((1 / vlen (p2 - p1)) • (p2 - p1)) = 1 := by
      rw [vlen_smul, abs_of_pos (by positivity), one_div,
        inv_mul_cancel₀ (ne_of_gt hL2pos)]
    have hw : p1 - seg = d • ((1 / vlen (p1 - p0)) • (p1 - p0)) := by
      rw [hseg]; abel
    have hwlen : vlen (p1 - seg) = d := by
      rw [hw, vlen_smul, hu1len, mul_one, abs_of_pos hd]
    have hwne : p1 - seg ≠ 0 := by
      intro h0
      rw [h0, vlen_eq_zero_iff.mpr rfl] at hwlen
      linarith
    have hdistseg : ptDist seg p1 = d := hwlen
    have hcs1 : ((Real.cos (atan2 (p1 - p0).2 (p1 - p0).1), Real.sin (atan2 (p1 - p0).2 (p1 - p0).1)) : Pt) = (1 / vlen (p1 - p0)) • (p1 - p0) :=
      cos_sin_atan2 hne1
    have hcs2 : ((Real.cos (atan2 (p2 - p1).2 (p2 - p1).1), Real.sin (atan2 (p2 - p1).2 (p2 - p1).1)) : Pt) = (1 / vlen (p2 - p1)) • (p2 - p1) :=
      cos_sin_atan2 hne2
    have hstraightpair :
        annPair r (Piece.straight (ptDist seg p1 - (vprod_sign (p1 - p0) (p2 - p1) * r / Real.tan ((π - turnAngle p0 p1 p2) / 2)) + cso)
            (180 / π * atan2 (p1.2 - seg.2) (p1.1 - seg.1)) seg) =
          some (seg, p1 + (cso - (vprod_sign (p1 - p0) (p2 - p1) * r / Real.tan ((π - turnAngle p0 p1 p2) / 2))) • ((1 / vlen (p1 - p0)) • (p1 - p0))) := by
      rw [annPair_straight, deg_rad]
      congr 2
      have hcsw := cos_sin_atan2 hwne
      rw [show ((Real.cos (atan2 (p1.2 - seg.2) (p1.1 - seg.1)),
            Real.sin (atan2 (p1.2 - seg.2) (p1.1 - seg.1))) : Pt) =
          (1 / vlen (p1 - seg)) • (p1 - seg) from hcsw]
      rw [hdistseg, hwlen, hw, smul_smul, smul_smul]
      rw [show (d - (vprod_sign (p1 - p0) (p2 - p1) * r / Real.tan ((π - turnAngle p0 p1 p2) / 2)) + cso) * (1 / d) * d = d - (vprod_sign (p1 - p0) (p2 - p1) * r / Real.tan ((π - turnAngle p0 p1 p2) / 2)) + cso from by
        field_simp]
      rw [hseg]
      module
    have harcpair :
        annPair r (Piece.curved (turnAngle p0 p1 p2)
            ((atan2 (p1 - p0).2 (p1 - p0).1) / π * 180.0 - (vprod_sign (p1 - p0) (p2 - p1)) * 90) (get_corner_data p0 p1 p2 r).corner_pos) =
          some (p1 - (vprod_sign (p1 - p0) (p2 - p1) * r / Real.tan ((π - turnAngle p0 p1 p2) / 2)) • ((1 / vlen (p1 - p0)) • (p1 - p0)), p1 + (vprod_sign (p1 - p0) (p2 - p1) * r / Real.tan ((π - turnAngle p0 p1 p2) / 2)) • ((1 / vlen (p2 - p1)) • (p2 - p1))) := by
      rw [annPair_curved, deg_rad_arc]
      unfold turnAngle
      rw [show ((1 / vlen (p1 - p0)) • (p1 - p0) : Pt) = ((Real.cos (atan2 (p1 - p0).2 (p1 - p0).1), Real.sin (atan2 (p1 - p0).2 (p1 - p0).1)) : Pt) from hcs1.symm]
      rw [show ((1 / vlen (p2 - p1)) • (p2 - p1) : Pt) = ((Real.cos (atan2 (p2 - p1).2 (p2 - p1).1), Real.sin (atan2 (p2 - p1).2 (p2 - p1).1)) : Pt) from hcs2.symm]
      exact congrArg some (Prod.ext (corner_arc_start p0 p1 p2 r hs hsin)
        (corner_arc_end p0 p1 p2 r hs hsin))
    have hseg2u : (p1 + ((1 / vlen (p2 - p1)) * (vprod_sign (p1 - p0) (p2 - p1) * r / Real.tan ((π - turnAngle p0 p1 p2) / 2))) • (p2 - p1) - (cso / vlen (p2 - p1)) • (p2 - p1)) = p1 + ((vprod_sign (p1 - p0) (p2 - p1) * r / Real.tan ((π - turnAngle p0 p1 p2) / 2)) - cso) • ((1 / vlen (p2 - p1)) • (p2 - p1)) := by
      module
    have hL2ne : ptDist p1 p2 ≠ 0 := by
      intro h0
      rw [show ptDist p1 p2 = vlen (p2 - p1) from rfl] at h0
      rw [h0] at hL2pos
      exact lt_irrefl 0 hL2pos
    have hsegrec : p1 + ((vprod_sign (p1 - p0) (p2 - p1) * r / Real.tan ((π - turnAngle p0 p1 p2) / 2)) - cso) • ((1 / vlen (p2 - p1)) • (p2 - p1)) =
        p2 - (vlen (p2 - p1) - (vprod_sign (p1 - p0) (p2 - p1) * r / Real.tan ((π - turnAngle p0 p1 p2) / 2)) + cso) • ((1 / vlen (p2 - p1)) • (p2 - p1)) := by
      apply Prod.ext
      · show p1.1 + ((vprod_sign (p1 - p0) (p2 - p1) * r / Real.tan ((π - turnAngle p0 p1 p2) / 2)) - cso) * (1 / vlen (p2 - p1) * (p2.1 - p1.1)) =
          p2.1 - (vlen (p2 - p1) - (vprod_sign (p1 - p0) (p2 - p1) * r / Real.tan ((π - turnAngle p0 p1 p2) / 2)) + cso) * (1 / vlen (p2 - p1) * (p2.1 - p1.1))
        have hL2ne2 : vlen (p2 - p1) ≠ 0 := hL2ne
        field_simp
        ring
      · show p1.2 + ((vprod_sign (p1 - p0) (p2 - p1) * r / Real.tan ((π - turnAngle p0 p1 p2) / 2)) - cso) * (1 / vlen (p2 - p1) * (p2.2 - p1.2)) =
          p2.2 - (vlen (p2 - p1) - (vprod_sign (p1 - p0) (p2 - p1) * r / Real.tan ((π - turnAngle p0 p1 p2) / 2)) + cso) * (1 / vlen (p2 - p1) * (p2.2 - p1.2))
        have hL2ne2 : vlen (p2 - p1) ≠ 0 := hL2ne
        field_simp
        ring
    have hcutle2 : (vprod_sign (p1 - p0) (p2 - p1) * r / Real.tan ((π - turnAngle p0 p1 p2) / 2)) ≤ r := hcutle
    have hleg2v : 2 * r < vlen (p2 - p1) := hleg2
    have hdpos : 0 < vlen (p2 - p1) - (vprod_sign (p1 - p0) (p2 - p1) * r / Real.tan ((π - turnAngle p0 p1 p2) / 2)) + cso := by linarith
    have hS2eq : (p1 + ((1 / vlen (p2 - p1)) * (vprod_sign (p1 - p0) (p2 - p1) * r / Real.tan ((π - turnAngle p0 p1 p2) / 2))) • (p2 - p1) - (cso / vlen (p2 - p1)) • (p2 - p1)) = p2 - (vlen (p2 - p1) - (vprod_sign (p1 - p0) (p2 - p1) * r / Real.tan ((π - turnAngle p0 p1 p2) / 2)) + cso) • ((1 / vlen (p2 - p1)) • (p2 - p1)) := by
      rw [hseg2u, hsegrec]
    have hrec := ih p1 p2 (p1 + ((1 / vlen (p2 - p1)) * (vprod_sign (p1 - p0) (p2 - p1) * r / Real.tan ((π - turnAngle p0 p1 p2) / 2))) • (p2 - p1) - (cso / vlen (p2 - p1)) • (p2 - p1)) (vlen (p2 - p1) - (vprod_sign (p1 - p0) (p2 - p1) * r / Real.tan ((π - turnAngle p0 p1 p2) / 2)) + cso) hlegs2 hturns2 hdpos hS2eq
    obtain ⟨hchain_rec, hhead_rec, hlen_rec⟩ := hrec
    have hgap1 : ptDist (p1 + (cso - (vprod_sign (p1 - p0) (p2 - p1) * r / Real.tan ((π - turnAngle p0 p1 p2) / 2))) • ((1 / vlen (p1 - p0)) • (p1 - p0))) (p1 - (vprod_sign (p1 - p0) (p2 - p1) * r / Real.tan ((π - turnAngle p0 p1 p2) / 2)) • ((1 / vlen (p1 - p0)) • (p1 - p0))) = cso := by
      rw [show p1 - (vprod_sign (p1 - p0) (p2 - p1) * r / Real.tan ((π - turnAngle p0 p1 p2) / 2)) • ((1 / vlen (p1 - p0)) • (p1 - p0)) = p1 + (-(vprod_sign (p1 - p0) (p2 - p1) * r / Real.tan ((π - turnAngle p0 p1 p2) / 2))) • ((1 / vlen (p1 - p0)) • (p1 - p0)) from by module]
      rw [ptDist_shift, hu1len, mul_one]
      rw [show -(vprod_sign (p1 - p0) (p2 - p1) * r / Real.tan ((π - turnAngle p0 p1 p2) / 2)) - (cso - (vprod_sign (p1 - p0) (p2 - p1) * r / Real.tan ((π - turnAngle p0 p1 p2) / 2))) = -cso from by ring, abs_neg, abs_of_pos hcso]
    have hgap2 : ptDist (p1 + (vprod_sign (p1 - p0) (p2 - p1) * r / Real.tan ((π - turnAngle p0 p1 p2) / 2)) • ((1 / vlen (p2 - p1)) • (p2 - p1))) (p1 + ((1 / vlen (p2 - p1)) * (vprod_sign (p1 - p0) (p2 - p1) * r / Real.tan ((π - turnAngle p0 p1 p2) / 2))) • (p2 - p1) - (cso / vlen (p2 - p1)) • (p2 - p1)) = cso := by
      rw [hseg2u, ptDist_shift, hu2len, mul_one]
      rw [show (vprod_sign (p1 - p0) (p2 - p1) * r / Real.tan ((π - turnAngle p0 p1 p2) / 2)) - cso - (vprod_sign (p1 - p0) (p2 - p1) * r / Real.tan ((π - turnAngle p0 p1 p2) / 2)) = -cso from by ring, abs_neg, abs_of_pos hcso]
    rw [synthLoop_cons]
    dsimp only
    rw [stepArcs_eq, if_pos hturn.1, List.singleton_append]
    rw [annPairs_cons r _ _ _ hstraightpair, annPairs_cons r _ _ _ harcpair]
    rw [List.cons_append, List.cons_append]
    refine ⟨?_, ?_, ?_⟩
    · apply chainGap_cons2
      · exact hgap1
      · intro hlen1
        rw [hhead_rec]
        exact hgap2
      · exact hchain_rec
    · rfl
    · simp only [List.length_cons]
      rw [hlen_rec]
      omega

theorem annPairs_append (r : ℝ) (l1 l2 : List Piece) :
    annPairs r (l1 ++ l2) = annPairs r l1 ++ annPairs r l2 :=
  List.filterMap_append l1 l2 (annPair r)

theorem annPairs_termination (r a b margin : ℝ) (q1 q2 : Pt) (tl : ℝ) :
    annPairs r (produce_end_termination a b margin q1 q2 tl) = [] := by
  simp only [produce_end_termination]
  split <;> simp [annPairs, annPair]

/-- C1, amended: for a path with at least 3 points, consecutive points more
than `2r` apart, every turn magnitude in `[min_angle, π/2]`, positive radius
and positive `corner_safety_overlap`, running the continuity verifier on the
synthesizer's output (with zero end terminations) at any tolerance strictly
greater than `corner_safety_overlap` reports continuous: every junction gap
is exactly `corner_safety_overlap`, so only the two path extremities are
unmatched. -/
theorem C1_continuity (r cso tol a b margin : ℝ) (p0 p1 : Pt) (rest : List Pt)
    (hr : 0 < r) (hcso : 0 < cso) (htol : cso < tol) (hrest : rest ≠ [])
    (hlegs : LegsOK r (p0 :: p1 :: rest)) (hturns : TurnsOK (p0 :: p1 :: rest)) :
    is_continuous (annPairs r ((produce_waveguide r cso 0 0 a b margin
        (p0 :: p1 :: rest)).getD [])) tol = true := by
  have hleg1 : 2 * r < ptDist p0 p1 := hlegs.1
  have hd0 : 0 < ptDist p0 p1 := by linarith
  have hL1ne : vlen (p1 - p0) ≠ 0 := by
    intro h0
    rw [show ptDist p0 p1 = vlen (p1 - p0) from rfl, h0] at hd0
    exact lt_irrefl 0 hd0
  have hseg0 : p0 = p1 - (ptDist p0 p1) • ((1 / vlen (p1 - p0)) • (p1 - p0)) := by
    rw [smul_smul, show ptDist p0 p1 = vlen (p1 - p0) from rfl,
      show vlen (p1 - p0) * (1 / vlen (p1 - p0)) = 1 from by field_simp, one_smul]
    abel
  have hchain := synthLoop_chain r cso hr hcso rest p0 p1 p0 (ptDist p0 p1)
    hlegs hturns hd0 hseg0
  obtain ⟨hgap, hhead, hlen⟩ := hchain
  have hrestlen : 1 ≤ rest.length := List.length_pos.mpr hrest
  rw [is_continuous_iff_le_two]
  simp only [produce_waveguide, Option.getD_some]
  rw [if_neg (lt_irrefl (0 : ℝ)), if_neg (lt_irrefl (0 : ℝ))]
  rw [annPairs_append, annPairs_append, annPairs_append, annPairs_append, annPairs_append]
  rw [annPairs_termination, annPairs_termination]
  rw [show annPairs r [Piece.portA p0 (p0 - p1)] = [] from rfl]
  rw [show annPairs r [Piece.portB (synthLoop r cso rest p0 p1 p0).fin
      ((synthLoop r cso rest p0 p1 p0).fin - (synthLoop r cso rest p0 p1 p0).pen)] = []
    from rfl]
  rw [add_zero]
  rw [annPairs_cons r _ _ _ (annPair_straight_to_target r
    (synthLoop r cso rest p0 p1 p0).segLast (synthLoop r cso rest p0 p1 p0).fin)]
  simp only [List.append_nil, List.nil_append, annPairs, List.filterMap_nil]
  refine chain_numUnmatched_le _ cso tol htol ?_ ?_
  · have := hlen
    simp only [annPairs, List.filterMap_nil] at this
    rw [List.length_append] at this ⊢
    simp only [List.length_cons, List.length_nil] at this ⊢
    omega
  · have := hgap
    simp only [annPairs, List.filterMap_nil] at this
    exact this

theorem ptDist_vert (x y1 y2 : ℝ) : ptDist (x, y1) (x, y2) = |y2 - y1| := by
  unfold ptDist vlen
  have h1 : (((x, y2) : Pt) - (x, y1)).1 = 0 := by
    show x - x = 0
    ring
  have h2 : (((x, y2) : Pt) - (x, y1)).2 = y2 - y1 := rfl
  rw [h1, h2]
  rw [show (0 : ℝ) ^ 2 + (y2 - y1) ^ 2 = (y2 - y1) ^ 2 from by ring, Real.sqrt_sq_eq_abs]

theorem atan2_zero_of_pos (x : ℝ) (hx : 0 < x) : atan2 0 x = 0 := by
  unfold atan2
  rw [show ({ re := x, im := 0 } : ℂ) = ((x : ℝ) : ℂ) from rfl]
  exact Complex.arg_ofReal_of_nonneg hx.le

theorem atan2_pi_div_two (y : ℝ) (hy : 0 < y) : atan2 y 0 = π / 2 := by
  unfold atan2
  rw [show ({ re := 0, im := y } : ℂ) = ((y : ℝ) : ℂ) * Complex.I from by
    simp [Complex.ext_iff]]
  rw [Complex.arg_real_mul _ hy, Complex.arg_I]

/-- Witness for C1 on the right-angle path (0,0) → (100,0) → (100,100) with
r = 30, corner_safety_overlap = 1/1000, tolerance = 1/100. -/
theorem C1_witness :
    is_continuous (annPairs 30 ((produce_waveguide 30 (1 / 1000) 0 0 1 1 1
        [((0 : ℝ), (0 : ℝ)), (100, 0), (100, 100)]).getD [])) (1 / 100) = true := by
  have hL : LegsOK 30 [((0 : ℝ), (0 : ℝ)), (100, 0), (100, 100)] := by
    show (2 * 30 < ptDist ((0 : ℝ), (0 : ℝ)) (100, 0)) ∧
      ((2 * 30 < ptDist ((100, 0) : Pt) (100, 100)) ∧ True)
    refine ⟨?_, ?_, trivial⟩
    · rw [ptDist_horiz, show |(100 : ℝ) - 0| = 100 from by norm_num]
      norm_num
    · rw [ptDist_vert, show |(100 : ℝ) - 0| = 100 from by norm_num]
      norm_num
  have hT : TurnsOK [((0 : ℝ), (0 : ℝ)), (100, 0), (100, 100)] := by
    have hturn : turnAngle ((0 : ℝ), (0 : ℝ)) (100, 0) (100, 100) = π / 2 := by
      unfold turnAngle
      rw [show (((100, 100) : Pt) - (100, 0)) = ((0, 100) : Pt) from by
          apply Prod.ext <;> norm_num,
        show (((100, 0) : Pt) - (0, 0)) = ((100, 0) : Pt) from by
          apply Prod.ext <;> norm_num]
      show atan2 100 0 - atan2 0 100 = π / 2
      rw [atan2_pi_div_two 100 (by norm_num), atan2_zero_of_pos 100 (by norm_num), sub_zero]
    show (min_angle ≤ |turnAngle ((0 : ℝ), (0 : ℝ)) (100, 0) (100, 100)| ∧
        |turnAngle ((0 : ℝ), (0 : ℝ)) (100, 0) (100, 100)| ≤ π / 2) ∧ True
    rw [hturn, abs_of_pos (by positivity)]
    refine ⟨⟨?_, le_refl _⟩, trivial⟩
    rw [show (min_angle : ℝ) = 1e-5 from rfl]
    have hπ := Real.pi_gt_three
    norm_num
    linarith
  exact C1_continuity 30 (1 / 1000) (1 / 100) 1 1 1 (0, 0) (100, 0) [(100, 100)]
    (by norm_num) (by norm_num) (by norm_num) (by simp) hL hT

theorem atan2_polar (c θ : ℝ) (hc : 0 < c) (hθ : θ ∈ Set.Ioc (-π) π) :
    atan2 (c * Real.sin θ) (c * Real.cos θ) = θ := by
  unfold atan2
  rw [show ({ re := c * Real.cos θ, im := c * Real.sin θ } : ℂ) =
      ((c : ℝ) : ℂ) * (Complex.cos θ + Complex.sin θ * Complex.I) from by
    simp [Complex.ext_iff, Complex.cos_ofReal_re, Complex.sin_ofReal_re,
      Complex.cos_ofReal_im, Complex.sin_ofReal_im]]
  rw [Complex.arg_real_mul _ hc]
  exact Complex.arg_cos_add_sin_mul_I hθ

theorem cos_three_pi_div_four : Real.cos (3 * π / 4) = -(Real.sqrt 2 / 2) := by
  rw [show 3 * π / 4 = π - π / 4 from by ring, Real.cos_pi_sub, Real.cos_pi_div_four]

theorem sin_three_pi_div_four : Real.sin (3 * π / 4) = Real.sqrt 2 / 2 := by
  rw [show 3 * π / 4 = π - π / 4 from by ring, Real.sin_pi_sub, Real.sin_pi_div_four]

theorem tan_pi_div_eight : Real.tan (π / 8) = Real.sqrt 2 - 1 := by
  have h2 : Real.sqrt 2 ^ 2 = 2 := Real.sq_sqrt (by norm_num)
  have hgt : (1 : ℝ) < Real.sqrt 2 := by nlinarith [Real.sqrt_nonneg 2]
  have hnn : (0 : ℝ) ≤ Real.sqrt 2 - 1 := by linarith
  have key : Real.sqrt (2 - Real.sqrt 2) = (Real.sqrt 2 - 1) * Real.sqrt (2 + Real.sqrt 2) := by
    rw [show (Real.sqrt 2 - 1) = Real.sqrt ((Real.sqrt 2 - 1) ^ 2) from
      (Real.sqrt_sq hnn).symm]
    rw [← Real.sqrt_mul (sq_nonneg _)]
    congr 1
    linear_combination (-Real.sqrt 2) * h2
  have hpos : 0 < Real.sqrt (2 + Real.sqrt 2) := by positivity
  rw [Real.tan_eq_sin_div_cos, Real.sin_pi_div_eight, Real.cos_pi_div_eight, key]
  field_simp

theorem synthLoop_nil (r cso : ℝ) (p0 p1 seg : Pt) :
    synthLoop r cso [] p0 p1 seg = ⟨[], seg, p0, p1⟩ := rfl

theorem tan_half_via_double (h : ℝ) (hc : Real.cos h ≠ 0) :
    Real.tan h = Real.sin (2 * h) / (1 + Real.cos (2 * h)) := by
  rw [Real.sin_two_mul, Real.cos_two_mul, Real.tan_eq_sin_div_cos]
  rw [show 1 + (2 * Real.cos h ^ 2 - 1) = 2 * Real.cos h ^ 2 from by ring]
  field_simp
  ring

theorem abs_x_le_ptDist (p q : Pt) : |q.1 - p.1| ≤ ptDist p q := by
  unfold ptDist vlen
  rw [show ((q - p).1 ^ 2 + (q - p).2 ^ 2) = (q.1 - p.1) ^ 2 + (q.2 - p.2) ^ 2 from rfl]
  calc |q.1 - p.1| = Real.sqrt ((q.1 - p.1) ^ 2) := (Real.sqrt_sq_eq_abs _).symm
    _ ≤ _ := Real.sqrt_le_sqrt (by nlinarith [sq_nonneg (q.2 - p.2)])

theorem not_lt_tol_of_x (p q : Pt) (tol : ℝ) (hx : tol ≤ |q.1 - p.1|) :
    ¬ ptDist p q < tol := by
  have hle := abs_x_le_ptDist p q
  intro hlt
  linarith

theorem ptDist_ne_zero (p q : Pt) (h : q.1 ≠ p.1) : ptDist p q ≠ 0 := by
  intro h0
  have hle := abs_x_le_ptDist p q
  rw [h0] at hle
  have habs : |q.1 - p.1| = 0 := le_antisymm hle (abs_nonneg _)
  exact h (by have := abs_eq_zero.mp habs; linarith)

theorem atan2_pi_of_neg (x : ℝ) (hx : x < 0) : atan2 0 x = π := by
  unfold atan2
  rw [show ({ re := x, im := 0 } : ℂ) = ((x : ℝ) : ℂ) from rfl]
  exact Complex.arg_ofReal_of_neg hx


/-- C1 counterexample: the zigzag path (0,0), (25,0), (5,15), (30,15) has all
legs of length 25 and bend radius 12 < 25/2, yet both turns have magnitude
pi - arctan(3/4) > pi/2, so the trimmed tangent length cut = 3r = 36 exceeds
the legs; the middle straight cell is emitted with reversed heading and three
endpoints end up isolated, so the verifier reports discontinuous even at
tolerance 2 * corner_safety_overlap. -/
theorem C1_counterexample :
    is_continuous (annPairs 12 ((produce_waveguide 12 (1 / 1000) 0 0 1 1 1
      [((0 : ℝ), (0 : ℝ)), (25, 0), (5, 15), (30, 15)]).getD [])) (1 / 500) = false := by
  have hd10 : ((25, 0) : Pt) - ((0, 0) : Pt) = ((25, 0) : Pt) := by
    apply Prod.ext
    · show (25 : ℝ) - 0 = 25
      norm_num
    · show (0 : ℝ) - 0 = 0
      norm_num
  have hd21 : ((5, 15) : Pt) - ((25, 0) : Pt) = ((-20, 15) : Pt) := by
    apply Prod.ext
    · show (5 : ℝ) - 25 = -20
      norm_num
    · show (15 : ℝ) - 0 = 15
      norm_num
  have hd32 : ((30, 15) : Pt) - ((5, 15) : Pt) = ((25, 0) : Pt) := by
    apply Prod.ext
    · show (30 : ℝ) - 5 = 25
      norm_num
    · show (15 : ℝ) - 15 = 0
      norm_num
  have hturn1 : turnAngle ((0, 0) : Pt) ((25, 0) : Pt) ((5, 15) : Pt) = atan2 15 (-20) := by
    unfold turnAngle
    rw [hd21, hd10]
    show atan2 15 (-20) - atan2 0 25 = atan2 15 (-20)
    rw [atan2_zero_of_pos 25 (by norm_num), sub_zero]
  have hturn2 : turnAngle ((25, 0) : Pt) ((5, 15) : Pt) ((30, 15) : Pt) = -atan2 15 (-20) := by
    unfold turnAngle
    rw [hd32, hd21]
    show atan2 0 25 - atan2 15 (-20) = -atan2 15 (-20)
    rw [atan2_zero_of_pos 25 (by norm_num), zero_sub]
  have hvlen2015 : vlen ((-20, 15) : Pt) = 25 := by
    unfold vlen
    rw [show ((-20 : ℝ), (15 : ℝ)).1 ^ 2 + ((-20 : ℝ), (15 : ℝ)).2 ^ 2 = 625 from by norm_num]
    rw [show (625 : ℝ) = 25 ^ 2 from by norm_num, Real.sqrt_sq (by norm_num)]
  have hvlen25 : vlen ((25, 0) : Pt) = 25 := by
    unfold vlen
    rw [show ((25 : ℝ), (0 : ℝ)).1 ^ 2 + ((25 : ℝ), (0 : ℝ)).2 ^ 2 = 625 from by norm_num]
    rw [show (625 : ℝ) = 25 ^ 2 from by norm_num, Real.sqrt_sq (by norm_num)]
  have hne2015 : ((-20, 15) : Pt) ≠ 0 := by
    intro h0
    rw [h0] at hvlen2015
    rw [vlen_eq_zero_iff.mpr rfl] at hvlen2015
    norm_num at hvlen2015
  have hcosθ : Real.cos (atan2 15 (-20)) = -(4 / 5) := by
    have h := cos_atan2 ((-20, 15) : Pt) hne2015
    rw [hvlen2015] at h
    rw [show atan2 ((-20, 15) : Pt).2 ((-20, 15) : Pt).1 = atan2 15 (-20) from rfl] at h
    rw [h]
    show 1 / 25 * (-20 : ℝ) = -(4 / 5)
    norm_num
  have hsinθ : Real.sin (atan2 15 (-20)) = 3 / 5 := by
    have h := sin_atan2 ((-20, 15) : Pt) hne2015
    rw [hvlen2015] at h
    rw [show atan2 ((-20, 15) : Pt).2 ((-20, 15) : Pt).1 = atan2 15 (-20) from rfl] at h
    rw [h]
    show 1 / 25 * (15 : ℝ) = 3 / 5
    norm_num
  have hcos2h : Real.cos (2 * ((π - atan2 15 (-20)) / 2)) = 4 / 5 := by
    rw [show 2 * ((π - atan2 15 (-20)) / 2) = π - atan2 15 (-20) from by ring,
      Real.cos_pi_sub, hcosθ]
    norm_num
  have hsin2h : Real.sin (2 * ((π - atan2 15 (-20)) / 2)) = 3 / 5 := by
    rw [show 2 * ((π - atan2 15 (-20)) / 2) = π - atan2 15 (-20) from by ring,
      Real.sin_pi_sub, hsinθ]
  have hcoshsq : Real.cos ((π - atan2 15 (-20)) / 2) ^ 2 = 9 / 10 := by
    have h := Real.cos_two_mul ((π - atan2 15 (-20)) / 2)
    rw [hcos2h] at h
    linarith
  have hcoshne : Real.cos ((π - atan2 15 (-20)) / 2) ≠ 0 := by
    intro h0
    rw [h0] at hcoshsq
    norm_num at hcoshsq
  have hsinhne : Real.sin ((π - atan2 15 (-20)) / 2) ≠ 0 := by
    intro h0
    have h2 := hsin2h
    rw [Real.sin_two_mul, h0] at h2
    norm_num at h2
  have htanh : Real.tan ((π - atan2 15 (-20)) / 2) = 1 / 3 := by
    rw [tan_half_via_double _ hcoshne, hsin2h, hcos2h]
    norm_num
  have hs1 : vprod_sign ((25, 0) : Pt) ((-20, 15) : Pt) = 1 := by
    unfold vprod_sign
    rw [show ((25, 0) : Pt).1 * ((-20, 15) : Pt).2 - ((25, 0) : Pt).2 * ((-20, 15) : Pt).1 =
      375 from by norm_num]
    exact Real.sign_of_pos (by norm_num)
  have hs2 : vprod_sign ((-20, 15) : Pt) ((25, 0) : Pt) = -1 := by
    unfold vprod_sign
    rw [show ((-20, 15) : Pt).1 * ((25, 0) : Pt).2 - ((-20, 15) : Pt).2 * ((25, 0) : Pt).1 =
      -375 from by norm_num]
    exact Real.sign_of_neg (by norm_num)
  have habsθ : π / 2 ≤ |atan2 15 (-20)| := by
    by_contra hlt
    push_neg at hlt
    rw [abs_lt] at hlt
    have hmem : atan2 15 (-20) ∈ Set.Icc (-(π / 2)) (π / 2) :=
      ⟨le_of_lt hlt.1, le_of_lt hlt.2⟩
    have hc := Real.cos_nonneg_of_mem_Icc hmem
    rw [hcosθ] at hc
    norm_num at hc
  have hmin1 : min_angle ≤ |turnAngle ((0, 0) : Pt) ((25, 0) : Pt) ((5, 15) : Pt)| := by
    rw [hturn1]
    have hπ := Real.pi_gt_three
    rw [show (min_angle : ℝ) = 1e-5 from rfl]
    norm_num
    linarith [habsθ]
  have hmin2 : min_angle ≤ |turnAngle ((25, 0) : Pt) ((5, 15) : Pt) ((30, 15) : Pt)| := by
    rw [hturn2, abs_neg]
    have hπ := Real.pi_gt_three
    rw [show (min_angle : ℝ) = 1e-5 from rfl]
    norm_num
    linarith [habsθ]
  have hs1d : vprod_sign (((25, 0) : Pt) - ((0, 0) : Pt)) (((5, 15) : Pt) - ((25, 0) : Pt)) = 1 := by
    rw [hd10, hd21]
    exact hs1
  have hsor1 : vprod_sign (((25, 0) : Pt) - ((0, 0) : Pt)) (((5, 15) : Pt) - ((25, 0) : Pt)) = 1 ∨
      vprod_sign (((25, 0) : Pt) - ((0, 0) : Pt)) (((5, 15) : Pt) - ((25, 0) : Pt)) = -1 :=
    Or.inl hs1d
  have hs2d : vprod_sign (((5, 15) : Pt) - ((25, 0) : Pt)) (((30, 15) : Pt) - ((5, 15) : Pt)) = -1 := by
    rw [hd21, hd32]
    exact hs2
  have hsor2 : vprod_sign (((5, 15) : Pt) - ((25, 0) : Pt)) (((30, 15) : Pt) - ((5, 15) : Pt)) = 1 ∨
      vprod_sign (((5, 15) : Pt) - ((25, 0) : Pt)) (((30, 15) : Pt) - ((5, 15) : Pt)) = -1 :=
    Or.inr hs2d
  have hsin1 : Real.sin ((π - (atan2 ((((5, 15) : Pt) - ((25, 0) : Pt))).2 ((((5, 15) : Pt) - ((25, 0) : Pt))).1 -
      atan2 ((((25, 0) : Pt) - ((0, 0) : Pt))).2 ((((25, 0) : Pt) - ((0, 0) : Pt))).1)) / 2) ≠ 0 := by
    rw [hd10, hd21]
    rw [show atan2 (((-20, 15) : Pt)).2 (((-20, 15) : Pt)).1 = atan2 15 (-20) from rfl,
      show atan2 (((25, 0) : Pt)).2 (((25, 0) : Pt)).1 = atan2 0 25 from rfl]
    rw [atan2_zero_of_pos 25 (by norm_num), sub_zero]
    exact hsinhne
  have hsin2 : Real.sin ((π - (atan2 ((((30, 15) : Pt) - ((5, 15) : Pt))).2 ((((30, 15) : Pt) - ((5, 15) : Pt))).1 -
      atan2 ((((5, 15) : Pt) - ((25, 0) : Pt))).2 ((((5, 15) : Pt) - ((25, 0) : Pt))).1)) / 2) ≠ 0 := by
    rw [hd21, hd32]
    rw [show atan2 (((25, 0) : Pt)).2 (((25, 0) : Pt)).1 = atan2 0 25 from rfl,
      show atan2 (((-20, 15) : Pt)).2 (((-20, 15) : Pt)).1 = atan2 15 (-20) from rfl]
    rw [atan2_zero_of_pos 25 (by norm_num), zero_sub,
      show (π - -atan2 15 (-20)) / 2 = π - (π - atan2 15 (-20)) / 2 from by ring,
      Real.sin_pi_sub]
    exact hsinhne
  have hpd01 : ptDist ((0, 0) : Pt) ((25, 0) : Pt) = 25 := by
    rw [ptDist_horiz, show |(25 : ℝ) - 0| = 25 from by norm_num]
  have hpd4 : ptDist ((40999 / 1000, 15) : Pt) ((30, 15) : Pt) = 10999 / 1000 := by
    rw [ptDist_horiz, show |(30 : ℝ) - 40999 / 1000| = 10999 / 1000 from by norm_num]
  have hseg2 : (((25, 0) : Pt) + (1 / vlen (((5, 15) : Pt) - ((25, 0) : Pt)) * (vprod_sign (((25, 0) : Pt) - ((0, 0) : Pt)) (((5, 15) : Pt) - ((25, 0) : Pt)) * 12 / tan ((π - turnAngle ((0, 0) : Pt) ((25, 0) : Pt) ((5, 15) : Pt)) / 2))) • (((5, 15) : Pt) - ((25, 0) : Pt)) - (1 / 1000 / vlen (((5, 15) : Pt) - ((25, 0) : Pt))) • (((5, 15) : Pt) - ((25, 0) : Pt))) = ((-(4749 / 1250), 107997 / 5000) : Pt) := by
    rw [hd10, hd21, hvlen2015, hs1, hturn1, htanh]
    apply Prod.ext
    · show (25 : ℝ) + 1 / 25 * (1 * 12 / (1 / 3)) * -20 - 1 / 1000 / 25 * -20 = -(4749 / 1250)
      norm_num
    · show (0 : ℝ) + 1 / 25 * (1 * 12 / (1 / 3)) * 15 - 1 / 1000 / 25 * 15 = 107997 / 5000
      norm_num
  have hseg3 : (((5, 15) : Pt) + (1 / vlen (((30, 15) : Pt) - ((5, 15) : Pt)) * (vprod_sign (((5, 15) : Pt) - ((25, 0) : Pt)) (((30, 15) : Pt) - ((5, 15) : Pt)) * 12 / tan ((π - turnAngle ((25, 0) : Pt) ((5, 15) : Pt) ((30, 15) : Pt)) / 2))) • (((30, 15) : Pt) - ((5, 15) : Pt)) - (1 / 1000 / vlen (((30, 15) : Pt) - ((5, 15) : Pt))) • (((30, 15) : Pt) - ((5, 15) : Pt))) = ((40999 / 1000, 15) : Pt) := by
    rw [hd21, hd32, hvlen25, hs2, hturn2,
      show (π - -atan2 15 (-20)) / 2 = π - (π - atan2 15 (-20)) / 2 from by ring,
      Real.tan_pi_sub, htanh]
    apply Prod.ext
    · show (5 : ℝ) + 1 / 25 * (-1 * 12 / -(1 / 3)) * 25 - 1 / 1000 / 25 * 25 = 40999 / 1000
      norm_num
    · show (15 : ℝ) + 1 / 25 * (-1 * 12 / -(1 / 3)) * 0 - 1 / 1000 / 25 * 0 = 15
      norm_num
  have hvw : vlen ((10999 / 1250, -(32997 / 5000)) : Pt) = 10999 / 1000 := by
    unfold vlen
    rw [show (((10999 / 1250, -(32997 / 5000)) : Pt)).1 ^ 2 +
        (((10999 / 1250, -(32997 / 5000)) : Pt)).2 ^ 2 = (10999 / 1000) ^ 2 from by
      show ((10999 / 1250 : ℝ)) ^ 2 + (-(32997 / 5000) : ℝ) ^ 2 = (10999 / 1000) ^ 2
      norm_num,
      Real.sqrt_sq (by norm_num)]
  have hwne : ((10999 / 1250, -(32997 / 5000)) : Pt) ≠ 0 := by
    intro h0
    rw [h0, vlen_eq_zero_iff.mpr rfl] at hvw
    norm_num at hvw
  have hcosw : Real.cos (atan2 (-(32997 / 5000)) (10999 / 1250)) = 4 / 5 := by
    have h := cos_atan2 ((10999 / 1250, -(32997 / 5000)) : Pt) hwne
    rw [hvw] at h
    rw [show atan2 (((10999 / 1250, -(32997 / 5000)) : Pt)).2
      (((10999 / 1250, -(32997 / 5000)) : Pt)).1 = atan2 (-(32997 / 5000)) (10999 / 1250)
      from rfl] at h
    rw [h]
    show 1 / (10999 / 1000) * (10999 / 1250 : ℝ) = 4 / 5
    norm_num
  have hsinw : Real.sin (atan2 (-(32997 / 5000)) (10999 / 1250)) = -(3 / 5) := by
    have h := sin_atan2 ((10999 / 1250, -(32997 / 5000)) : Pt) hwne
    rw [hvw] at h
    rw [show atan2 (((10999 / 1250, -(32997 / 5000)) : Pt)).2
      (((10999 / 1250, -(32997 / 5000)) : Pt)).1 = atan2 (-(32997 / 5000)) (10999 / 1250)
      from rfl] at h
    rw [h]
    show 1 / (10999 / 1000) * (-(32997 / 5000) : ℝ) = -(3 / 5)
    norm_num
  have hpd2 : ptDist ((-(4749 / 1250), 107997 / 5000) : Pt) ((5, 15) : Pt) = 10999 / 1000 := by
    unfold ptDist
    rw [show ((5, 15) : Pt) - ((-(4749 / 1250), 107997 / 5000) : Pt) =
        ((10999 / 1250, -(32997 / 5000)) : Pt) from by
      apply Prod.ext
      · show (5 : ℝ) - -(4749 / 1250) = 10999 / 1250
        norm_num
      · show (15 : ℝ) - 107997 / 5000 = -(32997 / 5000)
        norm_num]
    exact hvw
  have hS0 : annPair 12 (Piece.straight (ptDist ((0, 0) : Pt) ((25, 0) : Pt) - vprod_sign (((25, 0) : Pt) - ((0, 0) : Pt)) (((5, 15) : Pt) - ((25, 0) : Pt)) * 12 / tan ((π - turnAngle ((0, 0) : Pt) ((25, 0) : Pt) ((5, 15) : Pt)) / 2) + 1 / 1000) (180 / π * atan2 ((0 : ℝ) - 0) ((25 : ℝ) - 0)) ((0, 0) : Pt)) = some (((0, 0) : Pt), (-(10999 / 1000), 0)) := by
    rw [hd10, hd21, hs1, hturn1, htanh, hpd01]
    rw [show (0 : ℝ) - 0 = 0 from by norm_num, show (25 : ℝ) - 0 = 25 from by norm_num,
      atan2_zero_of_pos 25 (by norm_num)]
    rw [annPair_straight, deg_rad, Real.cos_zero, Real.sin_zero]
    refine congrArg some (Prod.ext rfl (Prod.ext ?_ ?_))
    · show (0 : ℝ) + (25 - 1 * 12 / (1 / 3) + 1 / 1000) * 1 = -(10999 / 1000)
      norm_num
    · show (0 : ℝ) + (25 - 1 * 12 / (1 / 3) + 1 / 1000) * 0 = 0
      norm_num
  have hA1 : annPair 12 (Piece.curved (turnAngle ((0, 0) : Pt) ((25, 0) : Pt) ((5, 15) : Pt)) (atan2 (((25, 0) : Pt) - ((0, 0) : Pt)).2 (((25, 0) : Pt) - ((0, 0) : Pt)).1 / π * 180.0 - vprod_sign (((25, 0) : Pt) - ((0, 0) : Pt)) (((5, 15) : Pt) - ((25, 0) : Pt)) * 90) (get_corner_data ((0, 0) : Pt) ((25, 0) : Pt) ((5, 15) : Pt) 12).corner_pos) = some (((-11, 0) : Pt), (-(19 / 5), 108 / 5)) := by
    rw [show turnAngle ((0, 0) : Pt) ((25, 0) : Pt) ((5, 15) : Pt) =
      atan2 ((((5, 15) : Pt) - ((25, 0) : Pt))).2 ((((5, 15) : Pt) - ((25, 0) : Pt))).1 -
        atan2 ((((25, 0) : Pt) - ((0, 0) : Pt))).2 ((((25, 0) : Pt) - ((0, 0) : Pt))).1 from rfl]
    rw [annPair_curved, deg_rad_arc]
    rw [corner_arc_start ((0, 0) : Pt) ((25, 0) : Pt) ((5, 15) : Pt) 12 hsor1 hsin1,
      corner_arc_end ((0, 0) : Pt) ((25, 0) : Pt) ((5, 15) : Pt) 12 hsor1 hsin1]
    rw [hd10, hd21]
    rw [show atan2 (((25, 0) : Pt)).2 (((25, 0) : Pt)).1 = atan2 0 25 from rfl,
      show atan2 (((-20, 15) : Pt)).2 (((-20, 15) : Pt)).1 = atan2 15 (-20) from rfl]
    rw [atan2_zero_of_pos 25 (by norm_num), sub_zero]
    rw [hs1, htanh, Real.cos_zero, Real.sin_zero, hcosθ, hsinθ]
    refine congrArg some (Prod.ext (Prod.ext ?_ ?_) (Prod.ext ?_ ?_))
    · show (25 : ℝ) - 1 * 12 / (1 / 3) * 1 = -11
      norm_num
    · show (0 : ℝ) - 1 * 12 / (1 / 3) * 0 = 0
      norm_num
    · show (25 : ℝ) + 1 * 12 / (1 / 3) * -(4 / 5) = -(19 / 5)
      norm_num
    · show (0 : ℝ) + 1 * 12 / (1 / 3) * (3 / 5) = 108 / 5
      norm_num
  have hS1 : annPair 12 (Piece.straight (ptDist (((25, 0) : Pt) + (1 / vlen (((5, 15) : Pt) - ((25, 0) : Pt)) * (vprod_sign (((25, 0) : Pt) - ((0, 0) : Pt)) (((5, 15) : Pt) - ((25, 0) : Pt)) * 12 / tan ((π - turnAngle ((0, 0) : Pt) ((25, 0) : Pt) ((5, 15) : Pt)) / 2))) • (((5, 15) : Pt) - ((25, 0) : Pt)) - (1 / 1000 / vlen (((5, 15) : Pt) - ((25, 0) : Pt))) • (((5, 15) : Pt) - ((25, 0) : Pt))) ((5, 15) : Pt) - vprod_sign (((5, 15) : Pt) - ((25, 0) : Pt)) (((30, 15) : Pt) - ((5, 15) : Pt)) * 12 / tan ((π - turnAngle ((25, 0) : Pt) ((5, 15) : Pt) ((30, 15) : Pt)) / 2) + 1 / 1000) (180 / π * atan2 ((15 : ℝ) - (((25, 0) : Pt) + (1 / vlen (((5, 15) : Pt) - ((25, 0) : Pt)) * (vprod_sign (((25, 0) : Pt) - ((0, 0) : Pt)) (((5, 15) : Pt) - ((25, 0) : Pt)) * 12 / tan ((π - turnAngle ((0, 0) : Pt) ((25, 0) : Pt) ((5, 15) : Pt)) / 2))) • (((5, 15) : Pt) - ((25, 0) : Pt)) - (1 / 1000 / vlen (((5, 15) : Pt) - ((25, 0) : Pt))) • (((5, 15) : Pt) - ((25, 0) : Pt))).2) ((5 : ℝ) - (((25, 0) : Pt) + (1 / vlen (((5, 15) : Pt) - ((25, 0) : Pt)) * (vprod_sign (((25, 0) : Pt) - ((0, 0) : Pt)) (((5, 15) : Pt) - ((25, 0) : Pt)) * 12 / tan ((π - turnAngle ((0, 0) : Pt) ((25, 0) : Pt) ((5, 15) : Pt)) / 2))) • (((5, 15) : Pt) - ((25, 0) : Pt)) - (1 / 1000 / vlen (((5, 15) : Pt) - ((25, 0) : Pt))) • (((5, 15) : Pt) - ((25, 0) : Pt))).1)) (((25, 0) : Pt) + (1 / vlen (((5, 15) : Pt) - ((25, 0) : Pt)) * (vprod_sign (((25, 0) : Pt) - ((0, 0) : Pt)) (((5, 15) : Pt) - ((25, 0) : Pt)) * 12 / tan ((π - turnAngle ((0, 0) : Pt) ((25, 0) : Pt) ((5, 15) : Pt)) / 2))) • (((5, 15) : Pt) - ((25, 0) : Pt)) - (1 / 1000 / vlen (((5, 15) : Pt) - ((25, 0) : Pt))) • (((5, 15) : Pt) - ((25, 0) : Pt)))) =
      some (((-(4749 / 1250), 107997 / 5000) : Pt), (-(29749 / 1250), 182997 / 5000)) := by
    rw [hseg2]
    rw [hd21, hd32, hs2, hturn2,
      show (π - -atan2 15 (-20)) / 2 = π - (π - atan2 15 (-20)) / 2 from by ring,
      Real.tan_pi_sub, htanh]
    rw [show (15 : ℝ) - (((-(4749 / 1250), 107997 / 5000)) : Pt).2 = -(32997 / 5000) from by
      show (15 : ℝ) - 107997 / 5000 = -(32997 / 5000)
      norm_num,
      show (5 : ℝ) - (((-(4749 / 1250), 107997 / 5000)) : Pt).1 = 10999 / 1250 from by
      show (5 : ℝ) - -(4749 / 1250) = 10999 / 1250
      norm_num]
    rw [hpd2, annPair_straight, deg_rad, hcosw, hsinw]
    refine congrArg some (Prod.ext rfl (Prod.ext ?_ ?_))
    · show -(4749 / 1250) + (10999 / 1000 - -1 * 12 / -(1 / 3) + 1 / 1000) * (4 / 5) = -(29749 / 1250)
      norm_num
    · show (107997 / 5000 : ℝ) + (10999 / 1000 - -1 * 12 / -(1 / 3) + 1 / 1000) * -(3 / 5) = 182997 / 5000
      norm_num
  have hA2 : annPair 12 (Piece.curved (turnAngle ((25, 0) : Pt) ((5, 15) : Pt) ((30, 15) : Pt)) (atan2 (((5, 15) : Pt) - ((25, 0) : Pt)).2 (((5, 15) : Pt) - ((25, 0) : Pt)).1 / π * 180.0 - vprod_sign (((5, 15) : Pt) - ((25, 0) : Pt)) (((30, 15) : Pt) - ((5, 15) : Pt)) * 90) (get_corner_data ((25, 0) : Pt) ((5, 15) : Pt) ((30, 15) : Pt) 12).corner_pos) = some (((169 / 5, -(33 / 5)) : Pt), (41, 15)) := by
    rw [show turnAngle ((25, 0) : Pt) ((5, 15) : Pt) ((30, 15) : Pt) =
      atan2 ((((30, 15) : Pt) - ((5, 15) : Pt))).2 ((((30, 15) : Pt) - ((5, 15) : Pt))).1 -
        atan2 ((((5, 15) : Pt) - ((25, 0) : Pt))).2 ((((5, 15) : Pt) - ((25, 0) : Pt))).1 from rfl]
    rw [annPair_curved, deg_rad_arc]
    rw [corner_arc_start ((25, 0) : Pt) ((5, 15) : Pt) ((30, 15) : Pt) 12 hsor2 hsin2,
      corner_arc_end ((25, 0) : Pt) ((5, 15) : Pt) ((30, 15) : Pt) 12 hsor2 hsin2]
    rw [hd21, hd32]
    rw [show atan2 (((25, 0) : Pt)).2 (((25, 0) : Pt)).1 = atan2 0 25 from rfl,
      show atan2 (((-20, 15) : Pt)).2 (((-20, 15) : Pt)).1 = atan2 15 (-20) from rfl]
    rw [atan2_zero_of_pos 25 (by norm_num), zero_sub,
      show (π - -atan2 15 (-20)) / 2 = π - (π - atan2 15 (-20)) / 2 from by ring,
      Real.tan_pi_sub, htanh]
    rw [hs2, Real.cos_zero, Real.sin_zero, hcosθ, hsinθ]
    refine congrArg some (Prod.ext (Prod.ext ?_ ?_) (Prod.ext ?_ ?_))
    · show (5 : ℝ) - -1 * 12 / -(1 / 3) * -(4 / 5) = 169 / 5
      norm_num
    · show (15 : ℝ) - -1 * 12 / -(1 / 3) * (3 / 5) = -(33 / 5)
      norm_num
    · show (5 : ℝ) + -1 * 12 / -(1 / 3) * 1 = 41
      norm_num
    · show (15 : ℝ) + -1 * 12 / -(1 / 3) * 0 = 15
      norm_num
  have hS2 : annPair 12 (Piece.straight (ptDist (((5, 15) : Pt) + (1 / vlen (((30, 15) : Pt) - ((5, 15) : Pt)) * (vprod_sign (((5, 15) : Pt) - ((25, 0) : Pt)) (((30, 15) : Pt) - ((5, 15) : Pt)) * 12 / tan ((π - turnAngle ((25, 0) : Pt) ((5, 15) : Pt) ((30, 15) : Pt)) / 2))) • (((30, 15) : Pt) - ((5, 15) : Pt)) - (1 / 1000 / vlen (((30, 15) : Pt) - ((5, 15) : Pt))) • (((30, 15) : Pt) - ((5, 15) : Pt))) ((30, 15) : Pt) + 0) (180 / π * atan2 ((15 : ℝ) - (((5, 15) : Pt) + (1 / vlen (((30, 15) : Pt) - ((5, 15) : Pt)) * (vprod_sign (((5, 15) : Pt) - ((25, 0) : Pt)) (((30, 15) : Pt) - ((5, 15) : Pt)) * 12 / tan ((π - turnAngle ((25, 0) : Pt) ((5, 15) : Pt) ((30, 15) : Pt)) / 2))) • (((30, 15) : Pt) - ((5, 15) : Pt)) - (1 / 1000 / vlen (((30, 15) : Pt) - ((5, 15) : Pt))) • (((30, 15) : Pt) - ((5, 15) : Pt))).2) ((30 : ℝ) - (((5, 15) : Pt) + (1 / vlen (((30, 15) : Pt) - ((5, 15) : Pt)) * (vprod_sign (((5, 15) : Pt) - ((25, 0) : Pt)) (((30, 15) : Pt) - ((5, 15) : Pt)) * 12 / tan ((π - turnAngle ((25, 0) : Pt) ((5, 15) : Pt) ((30, 15) : Pt)) / 2))) • (((30, 15) : Pt) - ((5, 15) : Pt)) - (1 / 1000 / vlen (((30, 15) : Pt) - ((5, 15) : Pt))) • (((30, 15) : Pt) - ((5, 15) : Pt))).1)) (((5, 15) : Pt) + (1 / vlen (((30, 15) : Pt) - ((5, 15) : Pt)) * (vprod_sign (((5, 15) : Pt) - ((25, 0) : Pt)) (((30, 15) : Pt) - ((5, 15) : Pt)) * 12 / tan ((π - turnAngle ((25, 0) : Pt) ((5, 15) : Pt) ((30, 15) : Pt)) / 2))) • (((30, 15) : Pt) - ((5, 15) : Pt)) - (1 / 1000 / vlen (((30, 15) : Pt) - ((5, 15) : Pt))) • (((30, 15) : Pt) - ((5, 15) : Pt)))) = some (((40999 / 1000, 15) : Pt), (30, 15)) := by
    rw [hseg3, add_zero]
    rw [show (15 : ℝ) - (((40999 / 1000, 15)) : Pt).2 = 0 from by
      show (15 : ℝ) - 15 = 0
      norm_num,
      show (30 : ℝ) - (((40999 / 1000, 15)) : Pt).1 = -(10999 / 1000) from by
      show (30 : ℝ) - 40999 / 1000 = -(10999 / 1000)
      norm_num]
    rw [hpd4, atan2_pi_of_neg (-(10999 / 1000)) (by norm_num), annPair_straight, deg_rad,
      Real.cos_pi, Real.sin_pi]
    refine congrArg some (Prod.ext rfl (Prod.ext ?_ ?_))
    · show (40999 / 1000 : ℝ) + 10999 / 1000 * -1 = 30
      norm_num
    · show (15 : ℝ) + 10999 / 1000 * 0 = 15
      norm_num
  have hpairs : annPairs 12 ((produce_waveguide 12 (1 / 1000) 0 0 1 1 1
      [((0 : ℝ), (0 : ℝ)), (25, 0), (5, 15), (30, 15)]).getD []) = cexEndpoints := by
    simp only [produce_waveguide, Option.getD_some]
    rw [if_neg (lt_irrefl (0 : ℝ)), if_neg (lt_irrefl (0 : ℝ))]
    rw [annPairs_append, annPairs_append, annPairs_append, annPairs_append, annPairs_append]
    rw [annPairs_termination, annPairs_termination]
    rw [show annPairs 12 [Piece.portA ((0, 0) : Pt) (((0, 0) : Pt) - ((25, 0) : Pt))] = []
      from rfl]
    rw [synthLoop_cons]
    dsimp only
    rw [synthLoop_cons]
    dsimp only
    rw [synthLoop_nil]
    dsimp only
    rw [show annPairs 12 [Piece.portB ((30, 15) : Pt) (((30, 15) : Pt) - ((5, 15) : Pt))] = []
      from rfl]
    rw [stepArcs_eq, if_pos hmin1, List.singleton_append, stepArcs_eq, if_pos hmin2,
      List.singleton_append]
    rw [annPairs_cons _ _ _ _ hS0, annPairs_cons _ _ _ _ hA1, annPairs_cons _ _ _ _ hS1,
      annPairs_cons _ _ _ _ hA2, annPairs_cons _ _ _ _ hS2]
    rw [show annPairs 12 ([] : List Piece) = [] from rfl]
    simp only [List.cons_append, List.nil_append, List.append_nil]
    rfl
  rw [hpairs]
  rw [Bool.eq_false_iff, Ne, is_continuous_iff_le_two]
  have hnd0 : ptDist ((0, 0) : Pt) ((-(10999 / 1000), 0) : Pt) ≠ 0 :=
    ptDist_ne_zero _ _ (by
      show (-(10999 / 1000) : ℝ) ≠ 0
      norm_num)
  have hnd2 : ptDist ((-(4749 / 1250), 107997 / 5000) : Pt) ((-(29749 / 1250), 182997 / 5000) : Pt) ≠ 0 :=
    ptDist_ne_zero _ _ (by
      show (-(29749 / 1250) : ℝ) ≠ -(4749 / 1250)
      norm_num)
  have hnd3 : ptDist ((169 / 5, -(33 / 5)) : Pt) ((41, 15) : Pt) ≠ 0 :=
    ptDist_ne_zero _ _ (by
      show (41 : ℝ) ≠ 169 / 5
      norm_num)
  have hnf0 : ¬ foundConn cexEndpoints (1 / 500) 0 (((0, 0)) : Pt) := by
    rintro ⟨j, hj, hne, hlt⟩
    have hj5 : j < 5 := by simpa [cexEndpoints] using hj
    interval_cases j
    · exact hne rfl
    · rcases hlt with h | h
      · exact not_lt_tol_of_x _ _ _ (by
          show (1 / 500 : ℝ) ≤ |(-(19 / 5)) - (0)|
          rw [le_abs]
          right
          norm_num) h
      · exact not_lt_tol_of_x _ _ _ (by
          show (1 / 500 : ℝ) ≤ |(-11) - (0)|
          rw [le_abs]
          right
          norm_num) h
    · rcases hlt with h | h
      · exact not_lt_tol_of_x _ _ _ (by
          show (1 / 500 : ℝ) ≤ |(-(29749 / 1250)) - (0)|
          rw [le_abs]
          right
          norm_num) h
      · exact not_lt_tol_of_x _ _ _ (by
          show (1 / 500 : ℝ) ≤ |(-(4749 / 1250)) - (0)|
          rw [le_abs]
          right
          norm_num) h
    · rcases hlt with h | h
      · exact not_lt_tol_of_x _ _ _ (by
          show (1 / 500 : ℝ) ≤ |(41) - (0)|
          rw [le_abs]
          left
          norm_num) h
      · exact not_lt_tol_of_x _ _ _ (by
          show (1 / 500 : ℝ) ≤ |(169 / 5) - (0)|
          rw [le_abs]
          left
          norm_num) h
    · rcases hlt with h | h
      · exact not_lt_tol_of_x _ _ _ (by
          show (1 / 500 : ℝ) ≤ |(30) - (0)|
          rw [le_abs]
          left
          norm_num) h
      · exact not_lt_tol_of_x _ _ _ (by
          show (1 / 500 : ℝ) ≤ |(40999 / 1000) - (0)|
          rw [le_abs]
          left
          norm_num) h
  have hnf2 : ¬ foundConn cexEndpoints (1 / 500) 2 (((-(29749 / 1250), 182997 / 5000)) : Pt) := by
    rintro ⟨j, hj, hne, hlt⟩
    have hj5 : j < 5 := by simpa [cexEndpoints] using hj
    interval_cases j
    · rcases hlt with h | h
      · exact not_lt_tol_of_x _ _ _ (by
          show (1 / 500 : ℝ) ≤ |(-(10999 / 1000)) - (-(29749 / 1250))|
          rw [le_abs]
          left
          norm_num) h
      · exact not_lt_tol_of_x _ _ _ (by
          show (1 / 500 : ℝ) ≤ |(0) - (-(29749 / 1250))|
          rw [le_abs]
          left
          norm_num) h
    · rcases hlt with h | h
      · exact not_lt_tol_of_x _ _ _ (by
          show (1 / 500 : ℝ) ≤ |(-(19 / 5)) - (-(29749 / 1250))|
          rw [le_abs]
          left
          norm_num) h
      · exact not_lt_tol_of_x _ _ _ (by
          show (1 / 500 : ℝ) ≤ |(-11) - (-(29749 / 1250))|
          rw [le_abs]
          left
          norm_num) h
    · exact hne rfl
    · rcases hlt with h | h
      · exact not_lt_tol_of_x _ _ _ (by
          show (1 / 500 : ℝ) ≤ |(41) - (-(29749 / 1250))|
          rw [le_abs]
          left
          norm_num) h
      · exact not_lt_tol_of_x _ _ _ (by
          show (1 / 500 : ℝ) ≤ |(169 / 5) - (-(29749 / 1250))|
          rw [le_abs]
          left
          norm_num) h
    · rcases hlt with h | h
      · exact not_lt_tol_of_x _ _ _ (by
          show (1 / 500 : ℝ) ≤ |(30) - (-(29749 / 1250))|
          rw [le_abs]
          left
          norm_num) h
      · exact not_lt_tol_of_x _ _ _ (by
          show (1 / 500 : ℝ) ≤ |(40999 / 1000) - (-(29749 / 1250))|
          rw [le_abs]
          left
          norm_num) h
  have hnf3 : ¬ foundConn cexEndpoints (1 / 500) 3 (((169 / 5, -(33 / 5))) : Pt) := by
    rintro ⟨j, hj, hne, hlt⟩
    have hj5 : j < 5 := by simpa [cexEndpoints] using hj
    interval_cases j
    · rcases hlt with h | h
      · exact not_lt_tol_of_x _ _ _ (by
          show (1 / 500 : ℝ) ≤ |(-(10999 / 1000)) - (169 / 5)|
          rw [le_abs]
          right
          norm_num) h
      · exact not_lt_tol_of_x _ _ _ (by
          show (1 / 500 : ℝ) ≤ |(0) - (169 / 5)|
          rw [le_abs]
          right
          norm_num) h
    · rcases hlt with h | h
      · exact not_lt_tol_of_x _ _ _ (by
          show (1 / 500 : ℝ) ≤ |(-(19 / 5)) - (169 / 5)|
          rw [le_abs]
          right
          norm_num) h
      · exact not_lt_tol_of_x _ _ _ (by
          show (1 / 500 : ℝ) ≤ |(-11) - (169 / 5)|
          rw [le_abs]
          right
          norm_num) h
    · rcases hlt with h | h
      · exact not_lt_tol_of_x _ _ _ (by
          show (1 / 500 : ℝ) ≤ |(-(29749 / 1250)) - (169 / 5)|
          rw [le_abs]
          right
          norm_num) h
      · exact not_lt_tol_of_x _ _ _ (by
          show (1 / 500 : ℝ) ≤ |(-(4749 / 1250)) - (169 / 5)|
          rw [le_abs]
          right
          norm_num) h
    · exact hne rfl
    · rcases hlt with h | h
      · exact not_lt_tol_of_x _ _ _ (by
          show (1 / 500 : ℝ) ≤ |(30) - (169 / 5)|
          rw [le_abs]
          right
          norm_num) h
      · exact not_lt_tol_of_x _ _ _ (by
          show (1 / 500 : ℝ) ≤ |(40999 / 1000) - (169 / 5)|
          rw [le_abs]
          left
          norm_num) h
  have h0 : 1 ≤ unmatchedInc cexEndpoints (1 / 500) 0 := by
    show 1 ≤ if ptDist ((0, 0) : Pt) ((-(10999 / 1000), 0) : Pt) ≠ 0 then
      (if foundConn cexEndpoints (1 / 500) 0 ((0, 0) : Pt) then 0 else 1) +
        (if foundConn cexEndpoints (1 / 500) 0 ((-(10999 / 1000), 0) : Pt) then 0 else 1) else 0
    rw [if_pos hnd0, if_neg hnf0]
    exact Nat.le_add_right 1 _
  have h2 : 1 ≤ unmatchedInc cexEndpoints (1 / 500) 2 := by
    show 1 ≤ if ptDist ((-(4749 / 1250), 107997 / 5000) : Pt) ((-(29749 / 1250), 182997 / 5000) : Pt) ≠ 0 then
      (if foundConn cexEndpoints (1 / 500) 2 ((-(4749 / 1250), 107997 / 5000) : Pt) then 0 else 1) +
        (if foundConn cexEndpoints (1 / 500) 2 ((-(29749 / 1250), 182997 / 5000) : Pt) then 0 else 1) else 0
    rw [if_pos hnd2, if_neg hnf2]
    exact Nat.le_add_left 1 _
  have h3 : 1 ≤ unmatchedInc cexEndpoints (1 / 500) 3 := by
    show 1 ≤ if ptDist ((169 / 5, -(33 / 5)) : Pt) ((41, 15) : Pt) ≠ 0 then
      (if foundConn cexEndpoints (1 / 500) 3 ((169 / 5, -(33 / 5)) : Pt) then 0 else 1) +
        (if foundConn cexEndpoints (1 / 500) 3 ((41, 15) : Pt) then 0 else 1) else 0
    rw [if_pos hnd3, if_neg hnf3]
    exact Nat.le_add_right 1 _
  have hsum : numUnmatched cexEndpoints (1 / 500) =
      unmatchedInc cexEndpoints (1 / 500) 0 + (unmatchedInc cexEndpoints (1 / 500) 1 +
        (unmatchedInc cexEndpoints (1 / 500) 2 + (unmatchedInc cexEndpoints (1 / 500) 3 +
          (unmatchedInc cexEndpoints (1 / 500) 4 + 0)))) := rfl
  rw [hsum]
  omega


/-! ### C4: no merging of collinear legs -/

theorem termination_curvedCount (a b margin : ℝ) (q1 q2 : Pt) (tl : ℝ) :
    curvedCount (produce_end_termination a b margin q1 q2 tl) = 0 := by
  unfold produce_end_termination curvedCount
  split <;> simp [isCurvedPiece]

theorem turnAngle_collinear_012 :
    |turnAngle ((0 : ℝ), (0 : ℝ)) ((1 : ℝ), (0 : ℝ)) ((2 : ℝ), (0 : ℝ))| < min_angle := by
  unfold turnAngle
  rw [show ((2, 0) : Pt) - ((1, 0) : Pt) = ((1, 0) : Pt) from by
    apply Prod.ext
    · show (2 : ℝ) - 1 = 1
      norm_num
    · show (0 : ℝ) - 0 = 0
      norm_num,
    show ((1, 0) : Pt) - ((0, 0) : Pt) = ((1, 0) : Pt) from by
    apply Prod.ext
    · show (1 : ℝ) - 0 = 1
      norm_num
    · show (0 : ℝ) - 0 = 0
      norm_num]
  rw [sub_self, abs_zero, show (min_angle : ℝ) = 1e-5 from rfl]
  norm_num

/-- For a 3-point path whose turn magnitude is below `min_angle`, the
synthesizer emits exactly two straight cells (one in the loop iteration, one
for the final segment) and no curved cell: the straight legs are never merged
into a single cell. -/
theorem produce_three_counts (r cso term1 term2 a b margin : ℝ) (p0 p1 p2 : Pt)
    (hsmall : |turnAngle p0 p1 p2| < min_angle) :
    straightCount ((produce_waveguide r cso term1 term2 a b margin [p0, p1, p2]).getD []) = 2 ∧
      curvedCount ((produce_waveguide r cso term1 term2 a b margin [p0, p1, p2]).getD []) = 0 := by
  constructor
  · simp only [produce_waveguide, Option.getD_some]
    simp only [straightCount, List.countP_append, List.countP_cons]
    have h1 := termination_straightCount a b margin p1 p0 term1
    have h2 := termination_straightCount a b margin
      (synthLoop r cso [p2] p0 p1
        (if 0 < term1 then p0 - (cso / vlen (p1 - p0)) • (p1 - p0) else p0)).pen
      (synthLoop r cso [p2] p0 p1
        (if 0 < term1 then p0 - (cso / vlen (p1 - p0)) • (p1 - p0) else p0)).fin
      term2
    have h3 := synthLoop_straightCount r cso [p2] p0 p1
      (if 0 < term1 then p0 - (cso / vlen (p1 - p0)) • (p1 - p0) else p0)
    simp only [straightCount] at h1 h2 h3
    simp [h1, h2, h3, isStraightPiece]
  · simp only [produce_waveguide, Option.getD_some]
    simp only [curvedCount, List.countP_append, List.countP_cons]
    have h1 := termination_curvedCount a b margin p1 p0 term1
    have h2 := termination_curvedCount a b margin
      (synthLoop r cso [p2] p0 p1
        (if 0 < term1 then p0 - (cso / vlen (p1 - p0)) • (p1 - p0) else p0)).pen
      (synthLoop r cso [p2] p0 p1
        (if 0 < term1 then p0 - (cso / vlen (p1 - p0)) • (p1 - p0) else p0)).fin
      term2
    have h3 : curvedCount (synthLoop r cso [p2] p0 p1
        (if 0 < term1 then p0 - (cso / vlen (p1 - p0)) • (p1 - p0) else p0)).pieces = 0 := by
      rw [synthLoop_cons]
      dsimp only
      rw [stepArcs_eq, if_neg (not_le.mpr hsmall), synthLoop_nil]
      simp [curvedCount, isCurvedPiece]
    simp only [curvedCount] at h1 h2 h3
    simp [h1, h2, h3, isCurvedPiece]

/-- C4 (amended): for a 3-point path whose middle vertex turn has magnitude
below the 1e-5 threshold, no arc is emitted, but the straight legs are NOT
merged into one run: the synthesizer emits exactly two straight cells, one
for the loop iteration at the middle vertex and one for the final segment. -/
theorem C4_collinear_no_merge (r cso term1 term2 a b margin : ℝ) (p0 p1 p2 : Pt)
    (hsmall : |turnAngle p0 p1 p2| < min_angle) :
    straightCount ((produce_waveguide r cso term1 term2 a b margin [p0, p1, p2]).getD []) = 2 ∧
      curvedCount ((produce_waveguide r cso term1 term2 a b margin [p0, p1, p2]).getD []) = 0 :=
  produce_three_counts r cso term1 term2 a b margin p0 p1 p2 hsmall

/-- Witness for C4 on the collinear path (0,0), (1,0), (2,0) with r = 2. -/
theorem C4_witness :
    |turnAngle ((0 : ℝ), (0 : ℝ)) ((1 : ℝ), (0 : ℝ)) ((2 : ℝ), (0 : ℝ))| < min_angle ∧
      (straightCount ((produce_waveguide 2 (1 / 1000) 0 0 1 1 1
          [((0 : ℝ), (0 : ℝ)), (1, 0), (2, 0)]).getD []) = 2 ∧
        curvedCount ((produce_waveguide 2 (1 / 1000) 0 0 1 1 1
          [((0 : ℝ), (0 : ℝ)), (1, 0), (2, 0)]).getD []) = 0) :=
  ⟨turnAngle_collinear_012,
    C4_collinear_no_merge 2 (1 / 1000) 0 0 1 1 1 ((0 : ℝ), (0 : ℝ)) ((1 : ℝ), (0 : ℝ))
      ((2 : ℝ), (0 : ℝ)) turnAngle_collinear_012⟩

/-- C4 counterexample: the collinear path (0,0), (1,0), (2,0) yields two
straight cells (and no arc), not the single merged straight run spanning the
full path length that the spec describes. -/
theorem C4_counterexample :
    straightCount ((produce_waveguide 1 (1 / 1000) 0 0 1 1 1
        [((0 : ℝ), (0 : ℝ)), (1, 0), (2, 0)]).getD []) = 2 ∧
      curvedCount ((produce_waveguide 1 (1 / 1000) 0 0 1 1 1
        [((0 : ℝ), (0 : ℝ)), (1, 0), (2, 0)]).getD []) = 0 :=
  produce_three_counts 1 (1 / 1000) 0 0 1 1 1 ((0 : ℝ), (0 : ℝ)) ((1 : ℝ), (0 : ℝ))
    ((2 : ℝ), (0 : ℝ)) turnAngle_collinear_012

end
